import Mathlib

/-!
Verification of the C-like tokenizer in `src/Common/interface/ParsingTools.hpp`
(namespace `Diligent::Parsing`).

The source buffer is embedded as a `List Char`; a cursor (`InteratorType` in
the source) is a `Nat` index into that list; the `End` iterator is the index
`s.length`.  Dereferencing one position past the last character yields the
NUL character, matching the C convention of NUL-terminated buffers that the
source relies on (`deref`).  Loops that scan forward are expressed either as
structural recursion over the remaining suffix of the buffer or, for the
interleaved splitter loops, with an explicit fuel argument; exhausting the
fuel is a distinguished internal error (`TokErr.fuel`) which is proved
unreachable.  The `VERIFY` consistency check inside `SplitString` is embedded
as the distinguished internal error `TokErr.assert`.
-/

namespace Diligent

namespace Parsing

/-- A source buffer: the characters between the start and end cursors. -/
abbrev Buf := List Char

/-- Dereference a cursor.  Positions at or past the end read as NUL,
matching a NUL-terminated C buffer. -/
def deref (s : Buf) (i : Nat) : Char :=
  s.getD i '\x00'

/-- `IsWhitespace` from ParsingTools.hpp: space or tab. -/
def IsWhitespace (c : Char) : Bool :=
  c = ' ' ∨ c = '\t'

/-- `IsNewLine` from ParsingTools.hpp: carriage return or line feed. -/
def IsNewLine (c : Char) : Bool :=
  c = '\r' ∨ c = '\n'

/-- `IsDelimiter` from ParsingTools.hpp: space, tab, CR or LF. -/
def IsDelimiter (c : Char) : Bool :=
  c = ' ' ∨ c = '\t' ∨ c = '\r' ∨ c = '\n'

/-- `IsStatementSeparator` from ParsingTools.hpp: semicolon or closing brace. -/
def IsStatementSeparator (c : Char) : Bool :=
  c = ';' ∨ c = '}'

/-- Modelled from the spec: the digit predicate `IsNum` lives in
`StringTools.h`, which is not under `src/`; the spec's numeric grammar
uses it as "is a decimal digit". -/
def IsNum (c : Char) : Bool :=
  '0' ≤ c ∧ c ≤ '9'

/-- The C library predicate `isalpha`, restricted to ASCII letters. -/
def IsAlphaC (c : Char) : Bool :=
  ('A' ≤ c ∧ c ≤ 'Z') ∨ ('a' ≤ c ∧ c ≤ 'z')

/-- The C library predicate `isalnum`, restricted to ASCII. -/
def IsAlnumC (c : Char) : Bool :=
  IsAlphaC c ∨ IsNum c

/-- Length of the longest prefix of `l` all of whose characters satisfy `p`:
the number of steps a `while (Pos != End && p(*Pos)) ++Pos;` loop makes. -/
def scanCount (p : Char → Bool) : List Char → Nat
  | [] => 0
  | c :: rest => if p c then scanCount p rest + 1 else 0

/-- The loop condition of the first loop of `SkipLine`: not NUL and not a newline. -/
def notLineEnd (c : Char) : Bool :=
  ¬(c = '\x00' ∨ IsNewLine c)

/-- The loop condition of the quoted-string scan of `Tokenize`: not NUL and not a quote. -/
def notQuoteEnd (c : Char) : Bool :=
  ¬(c = '\x00' ∨ c = '"')

/-- The tail condition of `SkipIdentifier`: alphanumeric or underscore. -/
def isIdentTail (c : Char) : Bool :=
  IsAlnumC c ∨ c = '_'

/-- `SkipLine` from ParsingTools.hpp.  Advances until a newline character,
a NUL or the end; with `goToNextLine` it additionally consumes the newline,
treating CR-LF as a single line ending.  Returns the new position (the C++
function returns whether the end was reached, which callers recompute). -/
def SkipLine (s : Buf) (pos : Nat) (goToNextLine : Bool) : Nat :=
  let p := pos + scanCount notLineEnd (s.drop pos)
  if goToNextLine ∧ p ≠ s.length ∧ IsNewLine (deref s p) then
    -- after ++Pos, the symbol before the cursor is the one at p; CR-LF is one unit
    if deref s p = '\r' ∧ p + 1 ≠ s.length ∧ deref s (p + 1) = '\n' then p + 2
    else p + 1
  else p

/-- Error signals of the embedded functions.  `parse` carries the anchored
position and message of a thrown `std::pair<InteratorType, const char*>`;
`fuel` marks exhaustion of the explicit fuel of an embedded loop (proved
unreachable); `assert` marks failure of the `VERIFY` consistency check in
`SplitString` (proved unreachable). -/
inductive TokErr where
  | parse (pos : Nat) (msg : String)
  | fuel
  | assert
deriving DecidableEq, Repr

/-- The message of the unterminated multi-line comment error. -/
def unterminatedCommentMsg : String :=
  "Unable to find the end of the multiline comment."

/-- The message of the unterminated string error. -/
def unterminatedStringMsg : String :=
  "Unable to find matching closing quotes."

/-- The scanning loop of the multi-line branch of `SkipComment`, expressed on
the suffix of the buffer that starts right after the opening slash-star:
returns the number of characters consumed up to and including the closing
star-slash, or `none` if the end of the buffer or a NUL is reached first. -/
def scanClose : List Char → Option Nat
  | [] => none
  | [_] => none
  | c :: d :: rest =>
    if c = '\x00' then none
    else if c = '*' then
      if d = '\x00' then none
      else if d = '/' then some 2
      else (scanClose (d :: rest)).map (· + 1)
    else (scanClose (d :: rest)).map (· + 1)

/-- `SkipComment` from ParsingTools.hpp.  At a position that starts a
single-line comment, consumes to the next line; at one that starts a
multi-line comment, consumes through the closing star-slash or throws the
unterminated-comment error anchored at the opening position; otherwise
leaves the position unchanged. -/
def SkipComment (s : Buf) (pos : Nat) : Except TokErr Nat :=
  if pos = s.length ∨ deref s pos = '\x00' then .ok pos
  else if deref s pos ≠ '/' then .ok pos
  else if pos + 1 = s.length ∨ deref s (pos + 1) = '\x00' then .ok pos
  else if deref s (pos + 1) = '/' then
    .ok (SkipLine s (pos + 1 + 1) true)
  else if deref s (pos + 1) = '*' then
    match scanClose (s.drop (pos + 1 + 1)) with
    | some k => .ok (pos + 1 + 1 + k)
    | none => .error (.parse pos unterminatedCommentMsg)
  else .ok pos

/-- `SkipDelimiters` from ParsingTools.hpp: advance over delimiter characters. -/
def SkipDelimiters (s : Buf) (pos : Nat) : Nat :=
  pos + scanCount IsDelimiter (s.drop pos)

/-- `SkipDelimitersAndComments` from ParsingTools.hpp, with explicit fuel for
the do-while loop: repeatedly skip a delimiter run and then a comment, until
an iteration makes no progress or the end is reached. -/
def SkipDelimitersAndCommentsF (s : Buf) : Nat → Nat → Except TokErr Nat
  | 0, _ => .error .fuel
  | fuel + 1, pos =>
    match SkipComment s (SkipDelimiters s pos) with
    | .error e => .error e
    | .ok p2 =>
      if p2 ≠ s.length ∧ (SkipDelimiters s pos ≠ pos ∨ p2 ≠ SkipDelimiters s pos) then
        SkipDelimitersAndCommentsF s fuel p2
      else .ok p2

/-- `SkipDelimitersAndComments` with the ample fuel `s.length + 1`. -/
def SkipDelimitersAndComments (s : Buf) (pos : Nat) : Except TokErr Nat :=
  SkipDelimitersAndCommentsF s (s.length + 1) pos

/-- `SkipIdentifier` from ParsingTools.hpp: a letter or underscore followed
by letters, digits or underscores; on no match the position is unchanged. -/
def SkipIdentifier (s : Buf) (pos : Nat) : Nat :=
  if pos = s.length then pos
  else if IsAlphaC (deref s pos) ∨ deref s pos = '_' then
    if pos + 1 = s.length then pos + 1
    else pos + 1 + scanCount isIdentTail (s.drop (pos + 1))
  else pos

/-- The digit-scanning loops of `SkipFloatNumber`:
final cursor of `while (c != End && IsNum(*c)) Pos = ++c;`. -/
def skipDigits (s : Buf) (c : Nat) : Nat :=
  c + scanCount IsNum (s.drop c)

/-- The buffer positions read by a digit-scanning loop of `SkipFloatNumber`
starting at offset `c`: every digit position plus the first non-digit
position if the loop stopped before the end. -/
def digitsReadsAux : List Char → Nat → List Nat
  | [], _ => []
  | ch :: rest, c => if IsNum ch then c :: digitsReadsAux rest (c + 1) else [c]

/-- Positions read by a digit-scanning loop of `SkipFloatNumber`. -/
def digitsReads (s : Buf) (c : Nat) : List Nat :=
  digitsReadsAux (s.drop c) c

/-- The trailing-suffix step of `SkipFloatNumber` (instrumented with the
list of buffer positions the step dereferences): a final `f`/`F` is
consumed only after a decimal part or an exponent, only when the scan has
consumed something (`Pos > Start`) and the cursor is not at the end; the
suffix character is read only when those guards hold. -/
def sfnSuffix (s : Buf) (start pos5 c5 : Nat) (hasDecimalPart hasExponent : Bool)
    (acc : List Nat) : Nat × List Nat :=
  if (hasDecimalPart ∨ hasExponent) ∧ c5 ≠ s.length ∧ pos5 > start then
    if deref s c5 = 'f' ∨ deref s c5 = 'F' then (c5 + 1, acc ++ [c5])
    else (pos5, acc ++ [c5])
  else (pos5, acc)

/-- The exponent step of `SkipFloatNumber`: an `e`/`E` is consumed only
after an integer part and only when followed by an explicit sign and at
least one digit; otherwise the exponent characters are not consumed and
the position saved so far is kept. -/
def sfnExponent (s : Buf) (start pos4 c4 : Nat) (hasIntegerPart hasDecimalPart : Bool)
    (acc : List Nat) : Nat × List Nat :=
  if deref s c4 = 'e' ∨ deref s c4 = 'E' then
    if ¬hasIntegerPart then
      -- .e, e, e+1, +.e are invalid
      (pos4, acc ++ [c4])
    else if c4 + 1 = s.length then (pos4, acc ++ [c4])
    else if deref s (c4 + 1) ≠ '+' ∧ deref s (c4 + 1) ≠ '-' then
      -- 10e&
      (pos4, acc ++ [c4, c4 + 1])
    else if c4 + 2 = s.length then (pos4, acc ++ [c4, c4 + 1])
    else if ¬IsNum (deref s (c4 + 2)) then
      -- 10e+x
      (pos4, acc ++ [c4, c4 + 1, c4 + 2])
    else
      sfnSuffix s start (skipDigits s (c4 + 2)) (skipDigits s (c4 + 2)) hasDecimalPart true
        (acc ++ [c4, c4 + 1, c4 + 2] ++ digitsReads s (c4 + 2))
  else sfnSuffix s start pos4 c4 hasDecimalPart false (acc ++ [c4])

/-- The decimal-part step of `SkipFloatNumber`: after a dot the saved
position advances past the dot only when an integer part was present
(`.`, `+.`, `-.` are not valid numbers, but `0.`, `+0.`, `-0.` are), and
digits after the dot advance the saved position unconditionally. -/
def sfnDecimal (s : Buf) (start pos2 c2 : Nat) (hasIntegerPart : Bool) (acc : List Nat) :
    Nat × List Nat :=
  if deref s c2 = '.' then
    let c3 := c2 + 1
    let pos3 := if hasIntegerPart then c3 else pos2
    let c4 := skipDigits s c3
    let pos4 := if c4 ≠ c3 then c4 else pos3
    let acc5 := acc ++ digitsReads s c3
    -- CHECK_END after the decimal digits
    if c4 = s.length then (pos4, acc5)
    else if deref s c4 = '\x00' then (pos4, acc5 ++ [c4])
    else sfnExponent s start pos4 c4 hasIntegerPart true (acc5 ++ [c4])
  else sfnExponent s start pos2 c2 hasIntegerPart false acc

/-- The leading-zero check and integer-part step of `SkipFloatNumber`.
The leading-zero check reads the character one past the current zero
(`c[1]` in the source) whenever the current character is `0`. -/
def sfnAfterSign (s : Buf) (start c1 : Nat) (acc : List Nat) : Nat × List Nat :=
  if deref s c1 = '0' ∧ IsNum (deref s (c1 + 1)) then
    -- 01 is invalid
    (c1 + 1, acc ++ [c1 + 1])
  else
    let acc2 := acc ++ (if deref s c1 = '0' then [c1 + 1] else [])
    if IsNum (deref s c1) then
      let c2 := skipDigits s c1
      let acc3 := acc2 ++ digitsReads s c1
      -- CHECK_END after the integer digits
      if c2 = s.length then (c2, acc3)
      else if deref s c2 = '\x00' then (c2, acc3 ++ [c2])
      else sfnDecimal s start c2 c2 true (acc3 ++ [c2])
    else sfnDecimal s start start c1 false acc2

/-- The optional leading sign of `SkipFloatNumber`: the cursor after
`if (*c == '+' || *c == '-') ++c;`. -/
def sfnSign (s : Buf) (pos : Nat) : Nat :=
  if deref s pos = '+' ∨ deref s pos = '-' then pos + 1 else pos

/-- `SkipFloatNumber` from ParsingTools.hpp, instrumented: returns the final
position together with the list of buffer positions the scan dereferences
(in order, short-circuit evaluation respected).  The control flow mirrors
the source, with the sequential blocks of the function body factored into
the step functions above: NUL/end checks, optional sign (`sfnSign`),
leading-zero rejection and integer part (`sfnAfterSign`), decimal part
(`sfnDecimal`), exponent (`sfnExponent`), trailing `f`/`F` suffix
(`sfnSuffix`). -/
def SkipFloatNumberI (s : Buf) (pos : Nat) : Nat × List Nat :=
  -- CHECK_END for c = Pos: reads *c only when c is not End
  if pos = s.length then (pos, [])
  else if deref s pos = '\x00' then (pos, [pos])
  -- the sign test reads *c at pos (in bounds); CHECK_END for the advanced cursor
  else if sfnSign s pos = s.length then (pos, [pos])
  else if deref s (sfnSign s pos) = '\x00' then (pos, [pos, sfnSign s pos])
  else sfnAfterSign s pos (sfnSign s pos) [pos, sfnSign s pos]

/-- `SkipFloatNumber` from ParsingTools.hpp: the final position of the scan. -/
def SkipFloatNumber (s : Buf) (pos : Nat) : Nat :=
  (SkipFloatNumberI s pos).1

/-- The buffer positions `SkipFloatNumber` dereferences. -/
def SkipFloatNumberReads (s : Buf) (pos : Nat) : List Nat :=
  (SkipFloatNumberI s pos).2

/-- The closed set of token kinds of the tokenizer (spec section 3; the
concrete `TokenType` enum lives with the caller-side token class, outside
`src/`, but its variants are fixed by the tokenizer switch and the spec). -/
inductive TokenType where
  | Undefined
  | PreprocessorDirective
  | Identifier
  | NumericConstant
  | StringConstant
  | Assignment
  | ComparisonOp
  | LogicOp
  | BitwiseOp
  | MathOp
  | IncDecOp
  | Colon
  | DoubleColon
  | Comma
  | Semicolon
  | QuestionMark
  | OpenParen
  | ClosingParen
  | OpenBrace
  | ClosingBrace
  | OpenSquareBracket
  | ClosingSquareBracket
  | OpenAngleBracket
  | ClosingAngleBracket
deriving DecidableEq, Repr

/-- Modelled from the spec: the token class (`TokenClass` template parameter
of `Tokenize`, defined outside `src/`): a token type plus the delimiter
range and the literal range, all as cursor bounds into the source buffer. -/
structure Token where
  type : TokenType
  delimStart : Nat
  delimEnd : Nat
  litStart : Nat
  litEnd : Nat
deriving DecidableEq, Repr

/-- The characters of the buffer between two cursors. -/
def subBuf (s : Buf) (a b : Nat) : List Char :=
  (s.drop a).take (b - a)

/-- Modelled from the spec: `CompareLiteral` of the token class against a
range of the same buffer (literal-text equality, no new buffers). -/
def CompareLiteralRange (s : Buf) (t : Token) (a b : Nat) : Bool :=
  subBuf s t.litStart t.litEnd = subBuf s a b

/-- Modelled from the spec: `CompareLiteral` of the token class against a
caller-provided string. -/
def CompareLiteralStr (s : Buf) (t : Token) (str : String) : Bool :=
  subBuf s t.litStart t.litEnd = str.toList

/-- Modelled from the spec: `SetType` of the token class (type widened in
place when two tokens merge). -/
def SetType (t : Token) (ty : TokenType) : Token :=
  { t with type := ty }

/-- Modelled from the spec: `ExtendLiteral` of the token class (the literal
end-bound widened in place to the end of the supplied range). -/
def ExtendLiteral (t : Token) (b : Nat) : Token :=
  { t with litEnd := b }

/-- The sentinel token seeded at the front of the sequence (`TokenClass` with
empty delimiter and literal ranges, type Undefined). -/
def emptyToken : Token :=
  ⟨.Undefined, 0, 0, 0, 0⟩

/-- `AddDoubleCharToken` from the Tokenize handler: merge the current
character into the previous token when that token is adjacent (no
delimiter in between) and its literal equals the current character; the
previous token's type is set to `ty` and its literal extended in place.
Also returns the updated string-merge instrumentation flag. -/
def AddDoubleCharToken (s : Buf) (tokens : List Token) (merged : Bool)
    (delimStart delimEnd pos : Nat) (ty : TokenType) : Option (List Token × Bool) :=
  if tokens ≠ [] ∧ delimStart = delimEnd then
    match tokens.getLast? with
    | some lastToken =>
      if CompareLiteralRange s lastToken pos (pos + 1) then
        some (tokens.dropLast ++ [ExtendLiteral (SetType lastToken ty) (pos + 1)],
              (merged ∨ lastToken.type = .StringConstant : Bool))
      else none
    | none => none
  else none

/-- The handler `Tokenize` passes to `SplitString`, classifying the literal
run that starts at `pos`; `delimStart` is the start of the preceding
delimiter/comment run and `pos` is `DelimEnd` alias `LiteralStart`.  The
state carries the token sequence plus an instrumentation flag that records
whether some compound-operator merge has extended a token that was a
StringConstant at merge time (such a merge drops the token's quote
characters from a rebuild).  Returns the new state, the new position and
the continue flag of the handler. -/
def tokenizeHandlerCore (s : Buf) (gtt : Nat → Nat → TokenType) (delimStart pos : Nat)
    (tokens : List Token) (merged : Bool) :
    Except TokErr ((List Token × Bool) × Nat × Bool) :=
    -- DelimEnd and LiteralStart are both the position after the gap
    if pos = s.length then
      .ok ((tokens ++ [⟨.Undefined, delimStart, pos, pos, pos⟩], merged), pos, false)
    -- the SINGLE_CHAR_TOKEN(TYPE) macro of the source appends a
    -- one-character token of the given type and advances the position
    else if deref s pos = '#' then
      .ok ((tokens ++ [⟨.PreprocessorDirective, delimStart, pos, pos, SkipLine s pos false⟩],
            merged), SkipLine s pos false, SkipLine s pos false != s.length)
    else if deref s pos = '=' then
      match (if tokens ≠ [] ∧ delimStart = pos then tokens.getLast? else none) with
      | some lastToken =>
        if ["+", "-", "*", "/", "%", "<<", ">>", "&", "|", "^"].any
            (fun op => CompareLiteralStr s lastToken op) then
          .ok ((tokens.dropLast ++ [ExtendLiteral (SetType lastToken .Assignment) (pos + 1)],
                (merged ∨ lastToken.type = .StringConstant : Bool)), pos + 1,
               pos + 1 != s.length)
        else if ["<", ">", "=", "!"].any (fun op => CompareLiteralStr s lastToken op) then
          .ok ((tokens.dropLast ++ [ExtendLiteral (SetType lastToken .ComparisonOp) (pos + 1)],
                (merged ∨ lastToken.type = .StringConstant : Bool)), pos + 1,
               pos + 1 != s.length)
        else
          .ok ((tokens ++ [⟨.Assignment, delimStart, pos, pos, pos + 1⟩], merged), pos + 1,
               pos + 1 != s.length)
      | none =>
        .ok ((tokens ++ [⟨.Assignment, delimStart, pos, pos, pos + 1⟩], merged), pos + 1,
             pos + 1 != s.length)
    else if deref s pos = '|' ∨ deref s pos = '&' then
      match AddDoubleCharToken s tokens merged delimStart pos pos .LogicOp with
      | some st1 => .ok (st1, pos + 1, pos + 1 != s.length)
      | none =>
        .ok ((tokens ++ [⟨.BitwiseOp, delimStart, pos, pos, pos + 1⟩], merged), pos + 1,
             pos + 1 != s.length)
    else if deref s pos = '<' ∨ deref s pos = '>' then
      match AddDoubleCharToken s tokens merged delimStart pos pos .BitwiseOp with
      | some st1 => .ok (st1, pos + 1, pos + 1 != s.length)
      | none =>
        .ok ((tokens ++ [⟨.ComparisonOp, delimStart, pos, pos, pos + 1⟩], merged), pos + 1,
             pos + 1 != s.length)
    else if deref s pos = '+' ∨ deref s pos = '-' then
      match AddDoubleCharToken s tokens merged delimStart pos pos .IncDecOp with
      | some st1 => .ok (st1, pos + 1, pos + 1 != s.length)
      | none =>
        .ok ((tokens ++ [⟨.MathOp, delimStart, pos, pos, pos + 1⟩], merged), pos + 1,
             pos + 1 != s.length)
    else if deref s pos = ':' then
      match AddDoubleCharToken s tokens merged delimStart pos pos .DoubleColon with
      | some st1 => .ok (st1, pos + 1, pos + 1 != s.length)
      | none =>
        .ok ((tokens ++ [⟨.Colon, delimStart, pos, pos, pos + 1⟩], merged), pos + 1,
             pos + 1 != s.length)
    else if deref s pos = '~' ∨ deref s pos = '^' then
      .ok ((tokens ++ [⟨.BitwiseOp, delimStart, pos, pos, pos + 1⟩], merged), pos + 1,
           pos + 1 != s.length)
    else if deref s pos = '*' ∨ deref s pos = '/' ∨ deref s pos = '%' then
      .ok ((tokens ++ [⟨.MathOp, delimStart, pos, pos, pos + 1⟩], merged), pos + 1,
           pos + 1 != s.length)
    else if deref s pos = '!' then
      .ok ((tokens ++ [⟨.LogicOp, delimStart, pos, pos, pos + 1⟩], merged), pos + 1,
           pos + 1 != s.length)
    else if deref s pos = ',' then
      .ok ((tokens ++ [⟨.Comma, delimStart, pos, pos, pos + 1⟩], merged), pos + 1,
           pos + 1 != s.length)
    else if deref s pos = ';' then
      .ok ((tokens ++ [⟨.Semicolon, delimStart, pos, pos, pos + 1⟩], merged), pos + 1,
           pos + 1 != s.length)
    else if deref s pos = '?' then
      .ok ((tokens ++ [⟨.QuestionMark, delimStart, pos, pos, pos + 1⟩], merged), pos + 1,
           pos + 1 != s.length)
    else if deref s pos = '(' then
      .ok ((tokens ++ [⟨.OpenParen, delimStart, pos, pos, pos + 1⟩], merged), pos + 1,
           pos + 1 != s.length)
    else if deref s pos = ')' then
      .ok ((tokens ++ [⟨.ClosingParen, delimStart, pos, pos, pos + 1⟩], merged), pos + 1,
           pos + 1 != s.length)
    else if deref s pos = '{' then
      .ok ((tokens ++ [⟨.OpenBrace, delimStart, pos, pos, pos + 1⟩], merged), pos + 1,
           pos + 1 != s.length)
    else if deref s pos = '}' then
      .ok ((tokens ++ [⟨.ClosingBrace, delimStart, pos, pos, pos + 1⟩], merged), pos + 1,
           pos + 1 != s.length)
    else if deref s pos = '[' then
      .ok ((tokens ++ [⟨.OpenSquareBracket, delimStart, pos, pos, pos + 1⟩], merged), pos + 1,
           pos + 1 != s.length)
    else if deref s pos = ']' then
      .ok ((tokens ++ [⟨.ClosingSquareBracket, delimStart, pos, pos, pos + 1⟩], merged),
           pos + 1, pos + 1 != s.length)
    else if deref s pos = '"' then
      -- literal bounds exclude the quote characters; the error is anchored
      -- at the opening quote (LiteralStart - 1)
      if pos + 1 + scanCount notQuoteEnd (s.drop (pos + 1)) = s.length ∨
          deref s (pos + 1 + scanCount notQuoteEnd (s.drop (pos + 1))) ≠ '"' then
        .error (.parse (pos + 1 - 1) unterminatedStringMsg)
      else
        .ok ((tokens ++ [⟨.StringConstant, delimStart, pos, pos + 1,
              pos + 1 + scanCount notQuoteEnd (s.drop (pos + 1))⟩], merged),
             pos + 1 + scanCount notQuoteEnd (s.drop (pos + 1)) + 1,
             pos + 1 + scanCount notQuoteEnd (s.drop (pos + 1)) + 1 != s.length)
    else if pos ≠ SkipIdentifier s pos then
      .ok ((tokens ++ [⟨(if gtt pos (SkipIdentifier s pos) = .Undefined then .Identifier
                         else gtt pos (SkipIdentifier s pos)), delimStart, pos, pos,
            SkipIdentifier s pos⟩], merged), SkipIdentifier s pos,
           SkipIdentifier s pos != s.length)
    else if pos ≠ SkipFloatNumber s pos then
      .ok ((tokens ++ [⟨.NumericConstant, delimStart, pos, pos, SkipFloatNumber s pos⟩],
            merged), SkipFloatNumber s pos, SkipFloatNumber s pos != s.length)
    else
      .ok ((tokens ++ [⟨.Undefined, delimStart, pos, pos, pos + 1⟩], merged), pos + 1,
           pos + 1 != s.length)

/-- The handler as passed to `SplitString`, taking the token-list plus
instrumentation-flag state as one pair. -/
def tokenizeHandler (s : Buf) (gtt : Nat → Nat → TokenType) (delimStart pos : Nat)
    (st : List Token × Bool) : Except TokErr ((List Token × Bool) × Nat × Bool) :=
  tokenizeHandlerCore s gtt delimStart pos st.1 st.2

/-- `SplitString` from ParsingTools.hpp, with explicit fuel for the outer
loop: repeatedly record the position, skip delimiters and comments, and
invoke the handler; stop at the end of the buffer or when the handler
returns false.  The `VERIFY` that the handler made progress is embedded as
the `TokErr.assert` error. -/
def SplitString {σ : Type} (s : Buf)
    (handler : Nat → Nat → σ → Except TokErr (σ × Nat × Bool)) :
    Nat → Nat → σ → Except TokErr σ
  | 0, _, _ => .error .fuel
  | fuel + 1, pos, st =>
    if pos = s.length then .ok st
    else
      match SkipDelimitersAndComments s pos with
      | .error e => .error e
      | .ok p1 =>
        match handler pos p1 st with
        | .error e => .error e
        | .ok (st1, p2, cont) =>
          if cont then
            if p2 ≠ s.length ∧ p2 = p1 then .error .assert
            else SplitString s handler fuel p2 st1
          else .ok st1

/-- `Tokenize` from ParsingTools.hpp, instrumented with the string-merge
flag: drives `SplitString` from the start of the buffer with the token
handler, seeding the sequence with the sentinel token. -/
def TokenizeI (s : Buf) (gtt : Nat → Nat → TokenType) :
    Except TokErr (List Token × Bool) :=
  SplitString s (tokenizeHandler s gtt) (s.length + 1) 0 ([emptyToken], false)

/-- `Tokenize` from ParsingTools.hpp: the produced token sequence. -/
def Tokenize (s : Buf) (gtt : Nat → Nat → TokenType) : Except TokErr (List Token) :=
  (TokenizeI s gtt).map Prod.fst

/-- The default literal classifier: always Undefined, so every identifier is
classified as a plain Identifier. -/
def gttDefault : Nat → Nat → TokenType := fun _ _ => TokenType.Undefined

/-- Modelled from the spec: `OutputDelimiter` followed by `OutputLiteral` of
the token class as used by `BuildSource`, with StringConstant literals
re-wrapped in the quote characters that were stripped at classification. -/
def OutputToken (s : Buf) (t : Token) : List Char :=
  subBuf s t.delimStart t.delimEnd ++
    (if t.type = .StringConstant then ['"'] else []) ++
    subBuf s t.litStart t.litEnd ++
    (if t.type = .StringConstant then ['"'] else [])

/-- `BuildSource` from ParsingTools.hpp: concatenate every token's delimiter
text and literal text. -/
def BuildSource (s : Buf) (tokens : List Token) : List Char :=
  (tokens.map (OutputToken s)).join

/-- The scanning loop of `FindFunction`: walks the remaining tokens with the
index of the current token in the full sequence and the running bracket
depth.  Returns the index of the found token (or `none` for the end
iterator) together with the flag recording whether the bracket-imbalance
error was reported. -/
def FindFunctionLoop (s : Buf) (all : List Token) (nm : String) :
    List Token → Nat → Int → Option Nat × Bool
  | [], _, _ => (none, false)
  | t :: rest, i, depth =>
    match t.type with
    | .OpenBrace | .OpenParen | .OpenSquareBracket | .OpenAngleBracket =>
      FindFunctionLoop s all nm rest (i + 1) (depth + 1)
    | .ClosingBrace | .ClosingParen | .ClosingSquareBracket | .ClosingAngleBracket =>
      if depth - 1 < 0 then (none, true)
      else FindFunctionLoop s all nm rest (i + 1) (depth - 1)
    | .Identifier =>
      if depth = 0 ∧ CompareLiteralStr s t nm then
        match rest.head? with
        | some nextToken =>
          if nextToken.type = .OpenParen then
            if i ≠ 0 then
              match all.get? (i - 1) with
              | some prevToken =>
                if prevToken.type = .Identifier then (some i, false)
                else FindFunctionLoop s all nm rest (i + 1) depth
              | none => FindFunctionLoop s all nm rest (i + 1) depth
            else FindFunctionLoop s all nm rest (i + 1) depth
          else FindFunctionLoop s all nm rest (i + 1) depth
        | none => FindFunctionLoop s all nm rest (i + 1) depth
      else FindFunctionLoop s all nm rest (i + 1) depth
    | _ => FindFunctionLoop s all nm rest (i + 1) depth

/-- `FindFunction` from ParsingTools.hpp.  The name is `none` for a null
pointer and `some` of the string otherwise (an empty string is the empty C
string).  Returns the index of the found token (`none` is the end iterator)
and whether the bracket-imbalance error was reported. -/
def FindFunction (s : Buf) (tokens : List Token) (name : Option String) :
    Option Nat × Bool :=
  match name with
  | none => (none, false)
  | some nm =>
    if nm = "" then (none, false)
    else FindFunctionLoop s tokens nm tokens 0 0

/-- Decidable equality of `Except` results, for concrete evaluations. -/
instance {ε α : Type} [DecidableEq ε] [DecidableEq α] : DecidableEq (Except ε α) := fun x y =>
  match x, y with
  | .ok a, .ok b =>
    if h : a = b then .isTrue (by rw [h]) else .isFalse (fun hc => h (Except.ok.inj hc))
  | .error a, .error b =>
    if h : a = b then .isTrue (by rw [h]) else .isFalse (fun hc => h (Except.error.inj hc))
  | .ok _, .error _ => .isFalse (fun hc => Except.noConfusion hc)
  | .error _, .ok _ => .isFalse (fun hc => Except.noConfusion hc)

/-! ### Basic facts about cursors, `scanCount` and `subBuf` -/

theorem scanCount_le (p : Char → Bool) (l : List Char) : scanCount p l ≤ l.length := by
  induction l with
  | nil => simp [scanCount]
  | cons c rest ih =>
    simp only [scanCount, List.length_cons]
    split <;> omega

theorem deref_lt {s : Buf} {i : Nat} (h : i < s.length) : deref s i = s.get ⟨i, h⟩ := by
  simp [deref, List.getD, List.getElem?_eq_getElem h, List.get_eq_getElem]

theorem drop_eq_deref_cons {s : Buf} {i : Nat} (h : i < s.length) :
    s.drop i = deref s i :: s.drop (i + 1) := by
  rw [List.drop_eq_getElem_cons h, deref_lt h]
  rfl

theorem scanCount_pos {p : Char → Bool} {s : Buf} {i : Nat} (h : i < s.length)
    (hp : p (deref s i) = true) : 1 ≤ scanCount p (s.drop i) := by
  rw [drop_eq_deref_cons h]
  simp [scanCount, hp]

theorem subBuf_same (s : Buf) (a : Nat) : subBuf s a a = [] := by
  simp [subBuf]

theorem subBuf_of_ge (s : Buf) {a b : Nat} (h : b ≤ a) : subBuf s a b = [] := by
  simp [subBuf, Nat.sub_eq_zero_of_le h]

theorem subBuf_append (s : Buf) {a b c : Nat} (h1 : a ≤ b) (h2 : b ≤ c) :
    subBuf s a b ++ subBuf s b c = subBuf s a c := by
  have hc : c - a = (b - a) + (c - b) := by omega
  have hd : (s.drop a).drop (b - a) = s.drop b := by
    rw [List.drop_drop]
    congr 1
    omega
  rw [subBuf, subBuf, subBuf, hc, List.take_add, hd]

theorem subBuf_singleton (s : Buf) {b : Nat} (h : b < s.length) :
    subBuf s b (b + 1) = [deref s b] := by
  rw [subBuf, drop_eq_deref_cons h]
  simp

theorem subBuf_snoc (s : Buf) {a b : Nat} (h1 : a ≤ b) (h2 : b < s.length) :
    subBuf s a (b + 1) = subBuf s a b ++ [deref s b] := by
  rw [← subBuf_append s h1 (Nat.le_succ b), subBuf_singleton s h2]

theorem take_append_subBuf (s : Buf) {a b : Nat} (h : a ≤ b) :
    s.take a ++ subBuf s a b = s.take b := by
  have hb : b = a + (b - a) := by omega
  rw [subBuf]
  conv_rhs => rw [hb]
  rw [List.take_add]

theorem lt_of_subBuf_ne_nil {s : Buf} {a b : Nat} (h : subBuf s a b ≠ []) : a < b := by
  by_contra hab
  exact h (subBuf_of_ge s (by omega))

theorem take_length_eq (s : Buf) : s.take s.length = s := List.take_length s

/-! ### Bounds of the cursor scanners -/

theorem SkipLine_ge (s : Buf) (pos : Nat) (g : Bool) : pos ≤ SkipLine s pos g := by
  simp only [SkipLine]
  split <;> [skip; omega]
  split <;> omega

theorem SkipLine_le (s : Buf) {pos : Nat} (g : Bool) (h : pos ≤ s.length) :
    SkipLine s pos g ≤ s.length := by
  have hc := scanCount_le notLineEnd (s.drop pos)
  rw [List.length_drop] at hc
  simp only [SkipLine]
  split
  case isTrue hg =>
    obtain ⟨-, hne, -⟩ := hg
    split <;> omega
  case isFalse hg => omega

theorem SkipLine_progress (s : Buf) {pos : Nat} (g : Bool) (h : pos < s.length)
    (h0 : deref s pos ≠ '\x00') (h1 : IsNewLine (deref s pos) = false) :
    pos + 1 ≤ SkipLine s pos g := by
  have hc : 1 ≤ scanCount notLineEnd (s.drop pos) :=
    scanCount_pos h (by simp [notLineEnd, h0, h1])
  simp only [SkipLine]
  split <;> [skip; omega]
  split <;> omega

theorem scanClose_le {l : List Char} {k : Nat} (h : scanClose l = some k) : k ≤ l.length := by
  induction l generalizing k with
  | nil => simp [scanClose] at h
  | cons c rest ih =>
    cases rest with
    | nil => simp [scanClose] at h
    | cons d rest2 =>
      rw [scanClose] at h
      split at h
      · cases h
      · split at h
        · split at h
          · cases h
          · split at h
            · cases h
              simp
            · rw [Option.map_eq_some'] at h
              obtain ⟨j, hj, hk⟩ := h
              have := ih hj
              simp at this ⊢
              omega
        · rw [Option.map_eq_some'] at h
          obtain ⟨j, hj, hk⟩ := h
          have := ih hj
          simp at this ⊢
          omega

theorem scanClose_some_star {l : List Char} {k : Nat} (h : scanClose l = some k) :
    ∃ j, l.get? j = some '*' ∧ l.get? (j + 1) = some '/' := by
  induction l generalizing k with
  | nil => simp [scanClose] at h
  | cons c rest ih =>
    cases rest with
    | nil => simp [scanClose] at h
    | cons d rest2 =>
      rw [scanClose] at h
      split at h
      · cases h
      case isFalse h0 =>
        split at h
        case isTrue h1 =>
          split at h
          · cases h
          case isFalse h2 =>
            split at h
            case isTrue h3 => exact ⟨0, by simp [h1], by simp [h3]⟩
            case isFalse h3 =>
              rw [Option.map_eq_some'] at h
              obtain ⟨j, hj, -⟩ := h
              obtain ⟨i, hi1, hi2⟩ := ih hj
              exact ⟨i + 1, by simpa using hi1, by simpa using hi2⟩
        case isFalse h1 =>
          rw [Option.map_eq_some'] at h
          obtain ⟨j, hj, -⟩ := h
          obtain ⟨i, hi1, hi2⟩ := ih hj
          exact ⟨i + 1, by simpa using hi1, by simpa using hi2⟩

theorem SkipComment_error_parse {s : Buf} {pos : Nat} {e : TokErr}
    (h : SkipComment s pos = .error e) : e = .parse pos unterminatedCommentMsg := by
  rw [SkipComment] at h
  split at h
  · cases h
  · split at h
    · cases h
    · split at h
      · cases h
      · split at h
        · cases h
        · split at h
          · split at h
            · cases h
            · exact (Except.error.inj h).symm
          · cases h

theorem SkipComment_ok_bounds {s : Buf} {pos q : Nat} (hp : pos ≤ s.length)
    (h : SkipComment s pos = .ok q) : pos ≤ q ∧ q ≤ s.length := by
  rw [SkipComment] at h
  by_cases h0 : pos = s.length ∨ deref s pos = '\x00'
  · rw [if_pos h0] at h
    cases h
    omega
  · rw [if_neg h0] at h
    by_cases h1 : deref s pos ≠ '/'
    · rw [if_pos h1] at h
      cases h
      omega
    · rw [if_neg h1] at h
      by_cases h2 : pos + 1 = s.length ∨ deref s (pos + 1) = '\x00'
      · rw [if_pos h2] at h
        cases h
        omega
      · rw [if_neg h2] at h
        have hlt : pos + 1 + 1 ≤ s.length := by
          push_neg at h0 h2
          omega
        by_cases h3 : deref s (pos + 1) = '/'
        · rw [if_pos h3] at h
          cases h
          have g1 := SkipLine_ge s (pos + 1 + 1) true
          have g2 := @SkipLine_le s (pos + 1 + 1) true hlt
          omega
        · rw [if_neg h3] at h
          by_cases h4 : deref s (pos + 1) = '*'
          · rw [if_pos h4] at h
            match hsc : scanClose (s.drop (pos + 1 + 1)) with
            | some k =>
              rw [hsc] at h
              cases h
              have := scanClose_le hsc
              rw [List.length_drop] at this
              omega
            | none =>
              rw [hsc] at h
              cases h
          · rw [if_neg h4] at h
            cases h
            omega

theorem SkipDelimiters_ge (s : Buf) (pos : Nat) : pos ≤ SkipDelimiters s pos := by
  simp [SkipDelimiters]

theorem SkipDelimiters_le (s : Buf) {pos : Nat} (h : pos ≤ s.length) :
    SkipDelimiters s pos ≤ s.length := by
  have hc := scanCount_le IsDelimiter (s.drop pos)
  rw [List.length_drop] at hc
  simp only [SkipDelimiters]
  omega

theorem SDCF_ok_bounds {s : Buf} {fuel pos q : Nat} (hp : pos ≤ s.length)
    (h : SkipDelimitersAndCommentsF s fuel pos = .ok q) : pos ≤ q ∧ q ≤ s.length := by
  induction fuel generalizing pos with
  | zero => simp [SkipDelimitersAndCommentsF] at h
  | succ fuel ih =>
    rw [SkipDelimitersAndCommentsF] at h
    have hd1 := SkipDelimiters_ge s pos
    have hd2 := SkipDelimiters_le s hp
    split at h
    · cases h
    case h_2 p2 heq =>
      have hc := SkipComment_ok_bounds hd2 heq
      split at h
      · have := @ih p2 (by omega) h
        omega
      · cases h
        omega

theorem SDC_ok_bounds {s : Buf} {pos q : Nat} (hp : pos ≤ s.length)
    (h : SkipDelimitersAndComments s pos = .ok q) : pos ≤ q ∧ q ≤ s.length :=
  SDCF_ok_bounds hp h

theorem SDCF_no_fuel {s : Buf} {fuel pos : Nat} (hp : pos ≤ s.length)
    (hf : s.length - pos < fuel) :
    SkipDelimitersAndCommentsF s fuel pos ≠ .error .fuel := by
  induction fuel generalizing pos with
  | zero => omega
  | succ fuel ih =>
    rw [SkipDelimitersAndCommentsF]
    have hd1 := SkipDelimiters_ge s pos
    have hd2 := SkipDelimiters_le s hp
    split
    case h_1 e heq =>
      have := SkipComment_error_parse heq
      subst this
      intro hcon
      simp at hcon
    case h_2 p2 heq =>
      have hc := SkipComment_ok_bounds hd2 heq
      split
      case isTrue hgo =>
        have hprog : pos < p2 := by
          obtain ⟨-, h2⟩ := hgo
          rcases h2 with h2 | h2 <;> omega
        exact @ih p2 (by omega) (by omega)
      case isFalse hgo =>
        intro hcon
        cases hcon

theorem deref_ne_nul_lt {s : Buf} {i : Nat} (h : deref s i ≠ '\x00') : i < s.length := by
  by_contra hc
  exact h (List.getD_eq_default s _ (by omega))

theorem SkipIdentifier_ge (s : Buf) (pos : Nat) : pos ≤ SkipIdentifier s pos := by
  rw [SkipIdentifier]
  repeat' split
  all_goals omega

theorem SkipIdentifier_le (s : Buf) {pos : Nat} (h : pos ≤ s.length) :
    SkipIdentifier s pos ≤ s.length := by
  have hc := scanCount_le isIdentTail (s.drop (pos + 1))
  rw [List.length_drop] at hc
  rw [SkipIdentifier]
  repeat' split
  all_goals omega

theorem skipDigits_ge (s : Buf) (c : Nat) : c ≤ skipDigits s c := by
  simp [skipDigits]

theorem skipDigits_le (s : Buf) {c : Nat} (h : c ≤ s.length) : skipDigits s c ≤ s.length := by
  have hc := scanCount_le IsNum (s.drop c)
  rw [List.length_drop] at hc
  simp only [skipDigits]
  omega

theorem sfnSuffix_fst_bounds (s : Buf) {start pos5 c5 : Nat} (hd he : Bool) (acc : List Nat)
    (h1 : start ≤ pos5) (h2 : pos5 ≤ s.length) (h3 : start ≤ c5) (h4 : c5 ≤ s.length) :
    start ≤ (sfnSuffix s start pos5 c5 hd he acc).1 ∧
      (sfnSuffix s start pos5 c5 hd he acc).1 ≤ s.length := by
  simp only [sfnSuffix]
  split_ifs with g1 g2
  all_goals refine ⟨?_, ?_⟩
  all_goals dsimp only
  all_goals omega

theorem sfnExponent_fst_bounds (s : Buf) {start pos4 c4 : Nat} (hi hd : Bool) (acc : List Nat)
    (h1 : start ≤ pos4) (h2 : pos4 ≤ s.length) (h3 : start ≤ c4) (h4 : c4 ≤ s.length) :
    start ≤ (sfnExponent s start pos4 c4 hi hd acc).1 ∧
      (sfnExponent s start pos4 c4 hi hd acc).1 ≤ s.length := by
  simp only [sfnExponent]
  split_ifs with g1 g2 g3 g4 g5 g6
  all_goals first
    | exact ⟨h1, h2⟩
    | exact sfnSuffix_fst_bounds s hd false _ h1 h2 h3 h4
    | (have hc4 : c4 < s.length := by
         rcases g1 with g1 | g1 <;> exact deref_ne_nul_lt (by rw [g1]; decide)
       have hg := skipDigits_ge s (c4 + 2)
       have hl := skipDigits_le s (c := c4 + 2) (by omega)
       exact sfnSuffix_fst_bounds s hd true _ (by omega) hl (by omega) hl)

theorem sfnDecimal_fst_bounds (s : Buf) {start pos2 c2 : Nat} (hi : Bool) (acc : List Nat)
    (h1 : start ≤ pos2) (h2 : pos2 ≤ s.length) (h3 : start ≤ c2) (h4 : c2 ≤ s.length) :
    start ≤ (sfnDecimal s start pos2 c2 hi acc).1 ∧
      (sfnDecimal s start pos2 c2 hi acc).1 ≤ s.length := by
  simp only [sfnDecimal]
  split_ifs with g1 g2 g3
  all_goals first
    | exact sfnExponent_fst_bounds s hi false _ h1 h2 h3 h4
    | (have hc2 : c2 < s.length := deref_ne_nul_lt (by rw [g1]; decide)
       have hg := skipDigits_ge s (c2 + 1)
       have hl := skipDigits_le s (c := c2 + 1) (by omega)
       first
         | (refine ⟨?_, ?_⟩ <;> dsimp only <;> first | (split_ifs <;> omega) | omega)
         | (refine sfnExponent_fst_bounds s hi true _ ?_ ?_ ?_ ?_ <;> omega))

theorem sfnAfterSign_fst_bounds (s : Buf) {start c1 : Nat} (acc : List Nat)
    (h1 : start ≤ c1) (h2 : c1 < s.length) :
    start ≤ (sfnAfterSign s start c1 acc).1 ∧ (sfnAfterSign s start c1 acc).1 ≤ s.length := by
  simp only [sfnAfterSign]
  have hg := skipDigits_ge s c1
  have hl := skipDigits_le s (c := c1) (by omega)
  split_ifs with g1 g2 g3 g4
  all_goals first
    | (refine ⟨?_, ?_⟩ <;> dsimp only <;> omega)
    | exact sfnDecimal_fst_bounds s true _ (by omega) hl (by omega) hl
    | exact sfnDecimal_fst_bounds s false _ (le_refl start) (by omega) h1 (by omega)

theorem sfnSign_bounds (s : Buf) (pos : Nat) :
    pos ≤ sfnSign s pos ∧ sfnSign s pos ≤ pos + 1 := by
  rw [sfnSign]
  split <;> omega

theorem SkipFloatNumber_bounds (s : Buf) {pos : Nat} (h : pos ≤ s.length) :
    pos ≤ SkipFloatNumber s pos ∧ SkipFloatNumber s pos ≤ s.length := by
  have hs := sfnSign_bounds s pos
  rw [SkipFloatNumber, SkipFloatNumberI]
  split_ifs with g1 g2 g3 g4
  all_goals try exact ⟨le_refl pos, h⟩
  exact sfnAfterSign_fst_bounds s _ hs.1 (by omega)

theorem SkipFloatNumber_ge (s : Buf) {pos : Nat} (h : pos ≤ s.length) :
    pos ≤ SkipFloatNumber s pos :=
  (SkipFloatNumber_bounds s h).1

theorem SkipFloatNumber_le (s : Buf) {pos : Nat} (h : pos ≤ s.length) :
    SkipFloatNumber s pos ≤ s.length :=
  (SkipFloatNumber_bounds s h).2

/-! ### One step of the tokenizing handler -/

theorem BuildSource_append (s : Buf) (ts : List Token) (t : Token) :
    BuildSource s (ts ++ [t]) = BuildSource s ts ++ OutputToken s t := by
  simp [BuildSource]

/-- Characterization of one successful invocation of the tokenize handler:
either the end-of-input token was appended (stopping the loop), or the
position strictly advanced and either a fresh token covering exactly the
consumed characters was appended (with raw literal bounds, or with
quote-stripped bounds for a string constant), or the current character was
merged into the previous token, extending its literal by one character. -/
def StepSpec (s : Buf) (gtt : Nat → Nat → TokenType) (delimStart p1 : Nat)
    (tokens : List Token) (merged : Bool)
    (st1 : List Token × Bool) (p2 : Nat) (cont : Bool) : Prop :=
  (p1 = s.length ∧ st1 = (tokens ++ [⟨.Undefined, delimStart, p1, p1, p1⟩], merged) ∧
    p2 = p1 ∧ cont = false) ∨
  (p1 < s.length ∧ p1 < p2 ∧ p2 ≤ s.length ∧ cont = (p2 != s.length) ∧
    ((∃ t, st1 = (tokens ++ [t], merged) ∧ t.delimStart = delimStart ∧ t.delimEnd = p1 ∧
        ((t.litStart = p1 ∧ t.litEnd = p2 ∧
           (t.type = .StringConstant → ∃ a b : Nat, gtt a b = .StringConstant)) ∨
         (t.type = .StringConstant ∧ t.litStart = p1 + 1 ∧ t.litEnd + 1 = p2 ∧
           p1 + 1 ≤ t.litEnd ∧ t.litEnd < s.length ∧
           deref s p1 = '"' ∧ deref s t.litEnd = '"'))) ∨
     (∃ lt ty, tokens.getLast? = some lt ∧ delimStart = p1 ∧ p2 = p1 + 1 ∧
        ty ≠ TokenType.StringConstant ∧
        st1 = (tokens.dropLast ++ [ExtendLiteral (SetType lt ty) (p1 + 1)],
               (merged ∨ lt.type = .StringConstant : Bool)) ∧
        subBuf s lt.litStart lt.litEnd ≠ [])))

theorem StepSpec_push {s : Buf} (gtt : Nat → Nat → TokenType) {delimStart p1 q : Nat}
    (tokens : List Token) (merged : Bool) (ty : TokenType)
    (h1 : p1 < s.length) (h2 : p1 < q) (h3 : q ≤ s.length)
    (hty : ty = .StringConstant → ∃ a b : Nat, gtt a b = .StringConstant) :
    StepSpec s gtt delimStart p1 tokens merged
      (tokens ++ [⟨ty, delimStart, p1, p1, q⟩], merged) q (q != s.length) :=
  Or.inr ⟨h1, h2, h3, rfl, Or.inl ⟨_, rfl, rfl, rfl, Or.inl ⟨rfl, rfl, hty⟩⟩⟩

theorem StepSpec_string {s : Buf} (gtt : Nat → Nat → TokenType) {delimStart p1 p : Nat}
    (tokens : List Token) (merged : Bool)
    (h1 : p1 < s.length) (hq1 : deref s p1 = '"') (hle : p1 + 1 ≤ p) (hp : p < s.length)
    (hq2 : deref s p = '"') :
    StepSpec s gtt delimStart p1 tokens merged
      (tokens ++ [⟨.StringConstant, delimStart, p1, p1 + 1, p⟩], merged) (p + 1)
      (p + 1 != s.length) :=
  Or.inr ⟨h1, by omega, by omega, rfl,
    Or.inl ⟨_, rfl, rfl, rfl, Or.inr ⟨rfl, rfl, rfl, hle, hp, hq1, hq2⟩⟩⟩

theorem StepSpec_merge {s : Buf} (gtt : Nat → Nat → TokenType) {p1 : Nat}
    (tokens : List Token) (merged : Bool) (lt : Token) (ty : TokenType)
    (h1 : p1 < s.length) (hlast : tokens.getLast? = some lt)
    (hty : ty ≠ TokenType.StringConstant)
    (hne : subBuf s lt.litStart lt.litEnd ≠ []) :
    StepSpec s gtt p1 p1 tokens merged
      (tokens.dropLast ++ [ExtendLiteral (SetType lt ty) (p1 + 1)],
       (merged ∨ lt.type = .StringConstant : Bool)) (p1 + 1) (p1 + 1 != s.length) :=
  Or.inr ⟨h1, by omega, by omega, rfl,
    Or.inr ⟨lt, ty, hlast, rfl, rfl, hty, rfl, hne⟩⟩

theorem AddDoubleCharToken_some {s : Buf} {tokens : List Token} {merged : Bool}
    {delimStart delimEnd pos : Nat} {ty : TokenType} {res : List Token × Bool}
    (h : AddDoubleCharToken s tokens merged delimStart delimEnd pos ty = some res) :
    ∃ lt, tokens.getLast? = some lt ∧ delimStart = delimEnd ∧
      CompareLiteralRange s lt pos (pos + 1) = true ∧
      res = (tokens.dropLast ++ [ExtendLiteral (SetType lt ty) (pos + 1)],
             (merged ∨ lt.type = .StringConstant : Bool)) := by
  rw [AddDoubleCharToken] at h
  split at h
  case isTrue hc =>
    split at h
    case h_1 lt heq =>
      split at h
      case isTrue hcl => exact ⟨lt, heq, hc.2, hcl, (Option.some.inj h).symm⟩
      case isFalse hcl => cases h
    case h_2 heq => cases h
  case isFalse hc => cases h

set_option maxHeartbeats 1600000 in
theorem tokenizeHandler_ok {s : Buf} (gtt : Nat → Nat → TokenType) {delimStart p1 : Nat}
    {tokens : List Token} {merged : Bool} {st1 : List Token × Bool} {p2 : Nat} {cont : Bool}
    (hp : p1 ≤ s.length)
    (h : tokenizeHandler s gtt delimStart p1 (tokens, merged) = .ok (st1, p2, cont)) :
    StepSpec s gtt delimStart p1 tokens merged st1 p2 cont := by
  replace h : tokenizeHandlerCore s gtt delimStart p1 tokens merged = .ok (st1, p2, cont) := h
  rw [tokenizeHandlerCore] at h
  by_cases hend : p1 = s.length
  · rw [if_pos hend] at h
    cases h
    exact Or.inl ⟨hend, rfl, rfl, rfl⟩
  rw [if_neg hend] at h
  have hlt : p1 < s.length := by omega
  by_cases hb1 : deref s p1 = '#'
  · rw [if_pos hb1] at h
    cases h
    have hprog := @SkipLine_progress s p1 false hlt (by rw [hb1]; decide)
      (by rw [hb1]; decide)
    have hle := @SkipLine_le s p1 false hp
    exact StepSpec_push gtt tokens merged .PreprocessorDirective hlt (by omega) hle
      (fun hc => nomatch hc)
  rw [if_neg hb1] at h
  by_cases hb2 : deref s p1 = '='
  · rw [if_pos hb2] at h
    split at h
    next lt heq =>
      split at heq
      next hcond =>
        obtain ⟨hne, hds⟩ := hcond
        subst hds
        split at h
        next hcmp =>
          cases h
          refine StepSpec_merge gtt tokens merged lt .Assignment hlt heq
            (fun hc => nomatch hc) ?_
          simp only [List.any_eq_true, List.mem_cons, List.mem_singleton] at hcmp
          obtain ⟨op, hop, hcl⟩ := hcmp
          simp only [CompareLiteralStr, decide_eq_true_eq] at hcl
          rw [hcl]
          rcases hop with rfl | rfl | rfl | rfl | rfl | rfl | rfl | rfl | rfl | hop
          all_goals try decide
          rcases hop with rfl | hop
          · decide
          · simp at hop
        next hcmp1 =>
          split at h
          next hcmp2 =>
            cases h
            refine StepSpec_merge gtt tokens merged lt .ComparisonOp hlt heq
              (fun hc => nomatch hc) ?_
            simp only [List.any_eq_true, List.mem_cons, List.mem_singleton] at hcmp2
            obtain ⟨op, hop, hcl⟩ := hcmp2
            simp only [CompareLiteralStr, decide_eq_true_eq] at hcl
            rw [hcl]
            rcases hop with rfl | rfl | rfl | hop
            all_goals try decide
            rcases hop with rfl | hop
            · decide
            · simp at hop
          next hcmp2 =>
            cases h
            exact StepSpec_push gtt tokens merged .Assignment hlt (by omega) (by omega)
              (fun hc => nomatch hc)
      next hcond => cases heq
    next heq =>
      cases h
      exact StepSpec_push gtt tokens merged .Assignment hlt (by omega) (by omega)
        (fun hc => nomatch hc)
  rw [if_neg hb2] at h
  by_cases hb3 : deref s p1 = '|' ∨ deref s p1 = '&'
  · rw [if_pos hb3] at h
    split at h
    next res heq =>
      obtain ⟨lt, hlast, hds, hcl, rfl⟩ := AddDoubleCharToken_some heq
      subst hds
      cases h
      refine StepSpec_merge gtt tokens merged lt .LogicOp hlt hlast (fun hc => nomatch hc) ?_
      simp only [CompareLiteralRange, decide_eq_true_eq] at hcl
      rw [hcl, subBuf_singleton s hlt]
      simp
    next heq =>
      cases h
      exact StepSpec_push gtt tokens merged .BitwiseOp hlt (by omega) (by omega)
        (fun hc => nomatch hc)
  rw [if_neg hb3] at h
  by_cases hb4 : deref s p1 = '<' ∨ deref s p1 = '>'
  · rw [if_pos hb4] at h
    split at h
    next res heq =>
      obtain ⟨lt, hlast, hds, hcl, rfl⟩ := AddDoubleCharToken_some heq
      subst hds
      cases h
      refine StepSpec_merge gtt tokens merged lt .BitwiseOp hlt hlast (fun hc => nomatch hc) ?_
      simp only [CompareLiteralRange, decide_eq_true_eq] at hcl
      rw [hcl, subBuf_singleton s hlt]
      simp
    next heq =>
      cases h
      exact StepSpec_push gtt tokens merged .ComparisonOp hlt (by omega) (by omega)
        (fun hc => nomatch hc)
  rw [if_neg hb4] at h
  by_cases hb5 : deref s p1 = '+' ∨ deref s p1 = '-'
  · rw [if_pos hb5] at h
    split at h
    next res heq =>
      obtain ⟨lt, hlast, hds, hcl, rfl⟩ := AddDoubleCharToken_some heq
      subst hds
      cases h
      refine StepSpec_merge gtt tokens merged lt .IncDecOp hlt hlast (fun hc => nomatch hc) ?_
      simp only [CompareLiteralRange, decide_eq_true_eq] at hcl
      rw [hcl, subBuf_singleton s hlt]
      simp
    next heq =>
      cases h
      exact StepSpec_push gtt tokens merged .MathOp hlt (by omega) (by omega)
        (fun hc => nomatch hc)
  rw [if_neg hb5] at h
  by_cases hb6 : deref s p1 = ':'
  · rw [if_pos hb6] at h
    split at h
    next res heq =>
      obtain ⟨lt, hlast, hds, hcl, rfl⟩ := AddDoubleCharToken_some heq
      subst hds
      cases h
      refine StepSpec_merge gtt tokens merged lt .DoubleColon hlt hlast (fun hc => nomatch hc) ?_
      simp only [CompareLiteralRange, decide_eq_true_eq] at hcl
      rw [hcl, subBuf_singleton s hlt]
      simp
    next heq =>
      cases h
      exact StepSpec_push gtt tokens merged .Colon hlt (by omega) (by omega)
        (fun hc => nomatch hc)
  rw [if_neg hb6] at h
  by_cases hb7 : deref s p1 = '~' ∨ deref s p1 = '^'
  · rw [if_pos hb7] at h
    cases h
    exact StepSpec_push gtt tokens merged .BitwiseOp hlt (by omega) (by omega)
      (fun hc => nomatch hc)
  rw [if_neg hb7] at h
  by_cases hb8 : deref s p1 = '*' ∨ deref s p1 = '/' ∨ deref s p1 = '%'
  · rw [if_pos hb8] at h
    cases h
    exact StepSpec_push gtt tokens merged .MathOp hlt (by omega) (by omega)
      (fun hc => nomatch hc)
  rw [if_neg hb8] at h
  by_cases hb9 : deref s p1 = '!'
  · rw [if_pos hb9] at h
    cases h
    exact StepSpec_push gtt tokens merged .LogicOp hlt (by omega) (by omega)
      (fun hc => nomatch hc)
  rw [if_neg hb9] at h
  by_cases hb10 : deref s p1 = ','
  · rw [if_pos hb10] at h
    cases h
    exact StepSpec_push gtt tokens merged .Comma hlt (by omega) (by omega)
      (fun hc => nomatch hc)
  rw [if_neg hb10] at h
  by_cases hb11 : deref s p1 = ';'
  · rw [if_pos hb11] at h
    cases h
    exact StepSpec_push gtt tokens merged .Semicolon hlt (by omega) (by omega)
      (fun hc => nomatch hc)
  rw [if_neg hb11] at h
  by_cases hb12 : deref s p1 = '?'
  · rw [if_pos hb12] at h
    cases h
    exact StepSpec_push gtt tokens merged .QuestionMark hlt (by omega) (by omega)
      (fun hc => nomatch hc)
  rw [if_neg hb12] at h
  by_cases hb13 : deref s p1 = '('
  · rw [if_pos hb13] at h
    cases h
    exact StepSpec_push gtt tokens merged .OpenParen hlt (by omega) (by omega)
      (fun hc => nomatch hc)
  rw [if_neg hb13] at h
  by_cases hb14 : deref s p1 = ')'
  · rw [if_pos hb14] at h
    cases h
    exact StepSpec_push gtt tokens merged .ClosingParen hlt (by omega) (by omega)
      (fun hc => nomatch hc)
  rw [if_neg hb14] at h
  by_cases hb15 : deref s p1 = '{'
  · rw [if_pos hb15] at h
    cases h
    exact StepSpec_push gtt tokens merged .OpenBrace hlt (by omega) (by omega)
      (fun hc => nomatch hc)
  rw [if_neg hb15] at h
  by_cases hb16 : deref s p1 = '}'
  · rw [if_pos hb16] at h
    cases h
    exact StepSpec_push gtt tokens merged .ClosingBrace hlt (by omega) (by omega)
      (fun hc => nomatch hc)
  rw [if_neg hb16] at h
  by_cases hb17 : deref s p1 = '['
  · rw [if_pos hb17] at h
    cases h
    exact StepSpec_push gtt tokens merged .OpenSquareBracket hlt (by omega) (by omega)
      (fun hc => nomatch hc)
  rw [if_neg hb17] at h
  by_cases hb18 : deref s p1 = ']'
  · rw [if_pos hb18] at h
    cases h
    exact StepSpec_push gtt tokens merged .ClosingSquareBracket hlt (by omega) (by omega)
      (fun hc => nomatch hc)
  rw [if_neg hb18] at h
  by_cases hb19 : deref s p1 = '"'
  · rw [if_pos hb19] at h
    split at h
    next hq => cases h
    next hq =>
      cases h
      push_neg at hq
      obtain ⟨hpn, hpq⟩ := hq
      have hcount := scanCount_le notQuoteEnd (s.drop (p1 + 1))
      rw [List.length_drop] at hcount
      exact StepSpec_string gtt tokens merged hlt hb19 (by omega) (by omega) hpq
  rw [if_neg hb19] at h
  split at h
  next hid =>
    cases h
    have hge := SkipIdentifier_ge s p1
    have hle := @SkipIdentifier_le s p1 hp
    refine StepSpec_push gtt tokens merged _ hlt (by omega) hle ?_
    intro hS
    split at hS
    · cases hS
    next hu => exact ⟨p1, SkipIdentifier s p1, hS⟩
  next hid =>
    split at h
    next hnum =>
      cases h
      have hge := @SkipFloatNumber_ge s p1 hp
      have hle := @SkipFloatNumber_le s p1 hp
      exact StepSpec_push gtt tokens merged .NumericConstant hlt (by omega) hle
        (fun hc => nomatch hc)
    next hnum =>
      cases h
      exact StepSpec_push gtt tokens merged .Undefined hlt (by omega) (by omega)
        (fun hc => nomatch hc)

/-! ### The splitter loop driven by the tokenize handler -/

/-- Invariant-based induction principle for the `SplitString` loop driven by
the tokenize handler: if `P` holds initially, is preserved by every
continuing handler step, and implies `Q` at both exits (end of input, or the
handler returning false), then `Q` holds of a successful result. -/
theorem SplitString_ind {s : Buf} {gtt : Nat → Nat → TokenType}
    (P : Nat → List Token × Bool → Prop) (Q : List Token × Bool → Prop)
    (hend : ∀ st, P s.length st → Q st)
    (hstep : ∀ pos p1 st st1 p2 cont, pos < s.length →
        SkipDelimitersAndComments s pos = .ok p1 →
        tokenizeHandler s gtt pos p1 st = .ok (st1, p2, cont) →
        P pos st → p2 ≤ s.length ∧ (cont = true → P p2 st1) ∧ (cont = false → Q st1)) :
    ∀ {fuel pos : Nat} {st : List Token × Bool} {res : List Token × Bool},
      pos ≤ s.length → P pos st →
      SplitString s (tokenizeHandler s gtt) fuel pos st = .ok res → Q res := by
  intro fuel
  induction fuel with
  | zero =>
    intro pos st res hp hP h
    cases h
  | succ fuel ih =>
    intro pos st res hp hP h
    rw [SplitString] at h
    split at h
    next hpos =>
      cases h
      subst hpos
      exact hend _ hP
    next hpos =>
      split at h
      next e heq => cases h
      next p1 heq =>
        split at h
        next e heq2 => cases h
        next st1 p2 cont heq2 =>
          obtain ⟨hle, hcont, hstop⟩ :=
            hstep pos p1 st st1 p2 cont (by omega) heq heq2 hP
          split at h
          next hc =>
            split at h
            next => cases h
            next =>
              exact @ih p2 st1 res hle (hcont hc) h
          next hc =>
            cases h
            exact hstop (by revert hc; cases cont <;> simp)

/-- A string-merge recorded in the instrumentation flag is never erased by
later steps of the loop. -/
theorem SplitString_flag_mono {s : Buf} {gtt : Nat → Nat → TokenType}
    {fuel pos : Nat} {tokens : List Token} {res : List Token × Bool}
    (hp : pos ≤ s.length)
    (h : SplitString s (tokenizeHandler s gtt) fuel pos (tokens, true) = .ok res) :
    res.2 = true := by
  refine SplitString_ind (fun _ st => st.2 = true) (fun st => st.2 = true)
    (fun _ hP => hP) ?_ hp rfl h
  intro pos p1 st st1 p2 cont hpos heq heq2 hP
  have hst : st = (st.1, st.2) := rfl
  rw [hst, hP] at heq2
  have hspec := tokenizeHandler_ok gtt (SDC_ok_bounds (le_of_lt hpos) heq).2 heq2
  rcases hspec with ⟨hp1, hst1, hp2, -⟩ | ⟨-, -, hle, -, hcase⟩
  · refine ⟨by omega, ?_, ?_⟩ <;> intro hc <;> rw [hst1]
  · refine ⟨hle, ?_, ?_⟩ <;> intro hc
    all_goals rcases hcase with ⟨t, hst1, -⟩ | ⟨lt, ty, -, -, -, -, hst1, -⟩ <;> rw [hst1]
    all_goals simp

/-- The errors of `SkipDelimitersAndCommentsF` are fuel exhaustion or parse
errors: the `VERIFY` token is never produced there. -/
theorem SDCF_error_cases {s : Buf} {fuel pos : Nat} {e : TokErr}
    (h : SkipDelimitersAndCommentsF s fuel pos = .error e) :
    e = .fuel ∨ ∃ p m, e = .parse p m := by
  induction fuel generalizing pos with
  | zero =>
    rw [SkipDelimitersAndCommentsF] at h
    exact Or.inl (Except.error.inj h).symm
  | succ fuel ih =>
    rw [SkipDelimitersAndCommentsF] at h
    split at h
    next e2 heq =>
      cases h
      exact Or.inr ⟨_, _, SkipComment_error_parse heq⟩
    next p2 heq =>
      split at h
      · exact ih h
      · cases h

/-- The only error the tokenize handler itself raises is the
unterminated-string parse error anchored at the opening quote. -/
theorem tokenizeHandler_error {s : Buf} {gtt : Nat → Nat → TokenType}
    {delimStart p1 : Nat} {tokens : List Token} {merged : Bool} {e : TokErr}
    (h : tokenizeHandler s gtt delimStart p1 (tokens, merged) = .error e) :
    e = .parse p1 unterminatedStringMsg := by
  replace h : tokenizeHandlerCore s gtt delimStart p1 tokens merged = .error e := h
  rw [tokenizeHandlerCore] at h
  by_cases hend : p1 = s.length
  · rw [if_pos hend] at h
    cases h
  rw [if_neg hend] at h
  by_cases hb1 : deref s p1 = '#'
  · rw [if_pos hb1] at h
    repeat' split at h
    all_goals cases h
    all_goals simp
  rw [if_neg hb1] at h
  by_cases hb2 : deref s p1 = '='
  · rw [if_pos hb2] at h
    repeat' split at h
    all_goals cases h
    all_goals simp
  rw [if_neg hb2] at h
  by_cases hb3 : deref s p1 = '|' ∨ deref s p1 = '&'
  · rw [if_pos hb3] at h
    repeat' split at h
    all_goals cases h
    all_goals simp
  rw [if_neg hb3] at h
  by_cases hb4 : deref s p1 = '<' ∨ deref s p1 = '>'
  · rw [if_pos hb4] at h
    repeat' split at h
    all_goals cases h
    all_goals simp
  rw [if_neg hb4] at h
  by_cases hb5 : deref s p1 = '+' ∨ deref s p1 = '-'
  · rw [if_pos hb5] at h
    repeat' split at h
    all_goals cases h
    all_goals simp
  rw [if_neg hb5] at h
  by_cases hb6 : deref s p1 = ':'
  · rw [if_pos hb6] at h
    repeat' split at h
    all_goals cases h
    all_goals simp
  rw [if_neg hb6] at h
  by_cases hb7 : deref s p1 = '~' ∨ deref s p1 = '^'
  · rw [if_pos hb7] at h
    repeat' split at h
    all_goals cases h
    all_goals simp
  rw [if_neg hb7] at h
  by_cases hb8 : deref s p1 = '*' ∨ deref s p1 = '/' ∨ deref s p1 = '%'
  · rw [if_pos hb8] at h
    repeat' split at h
    all_goals cases h
    all_goals simp
  rw [if_neg hb8] at h
  by_cases hb9 : deref s p1 = '!'
  · rw [if_pos hb9] at h
    repeat' split at h
    all_goals cases h
    all_goals simp
  rw [if_neg hb9] at h
  by_cases hb10 : deref s p1 = ','
  · rw [if_pos hb10] at h
    repeat' split at h
    all_goals cases h
    all_goals simp
  rw [if_neg hb10] at h
  by_cases hb11 : deref s p1 = ';'
  · rw [if_pos hb11] at h
    repeat' split at h
    all_goals cases h
    all_goals simp
  rw [if_neg hb11] at h
  by_cases hb12 : deref s p1 = '?'
  · rw [if_pos hb12] at h
    repeat' split at h
    all_goals cases h
    all_goals simp
  rw [if_neg hb12] at h
  by_cases hb13 : deref s p1 = '('
  · rw [if_pos hb13] at h
    repeat' split at h
    all_goals cases h
    all_goals simp
  rw [if_neg hb13] at h
  by_cases hb14 : deref s p1 = ')'
  · rw [if_pos hb14] at h
    repeat' split at h
    all_goals cases h
    all_goals simp
  rw [if_neg hb14] at h
  by_cases hb15 : deref s p1 = '{'
  · rw [if_pos hb15] at h
    repeat' split at h
    all_goals cases h
    all_goals simp
  rw [if_neg hb15] at h
  by_cases hb16 : deref s p1 = '}'
  · rw [if_pos hb16] at h
    repeat' split at h
    all_goals cases h
    all_goals simp
  rw [if_neg hb16] at h
  by_cases hb17 : deref s p1 = '['
  · rw [if_pos hb17] at h
    repeat' split at h
    all_goals cases h
    all_goals simp
  rw [if_neg hb17] at h
  by_cases hb18 : deref s p1 = ']'
  · rw [if_pos hb18] at h
    repeat' split at h
    all_goals cases h
    all_goals simp
  rw [if_neg hb18] at h
  by_cases hb19 : deref s p1 = '"'
  · rw [if_pos hb19] at h
    repeat' split at h
    all_goals cases h
    all_goals simp
  rw [if_neg hb19] at h
  repeat' split at h
  all_goals cases h

theorem tail_append_ne {α : Type} {l l2 : List α} (h : l ≠ []) :
    (l ++ l2).tail = l.tail ++ l2 := by
  cases l with
  | nil => exact absurd rfl h
  | cons a l => simp

theorem mem_of_getLast?_eq {α : Type} {l : List α} {a : α} (h : l.getLast? = some a) :
    a ∈ l := by
  have hd := List.dropLast_append_getLast? a h
  rw [← hd]
  simp

/-- The literal-range loop invariant: the sequence is non-empty, every
literal range ends within the consumed prefix, and every token after the
sentinel has a non-empty literal range or is a StringConstant. -/
def LitInv (s : Buf) (pos : Nat) (st : List Token × Bool) : Prop :=
  st.1 ≠ [] ∧ (∀ t ∈ st.1, t.litEnd ≤ pos) ∧
    (∀ t ∈ st.1.tail, t.litStart < t.litEnd ∨ t.type = TokenType.StringConstant)

theorem LitInv_step {s : Buf} {gtt : Nat → Nat → TokenType}
    {pos p1 : Nat} {st st1 : List Token × Bool} {p2 : Nat} {cont : Bool}
    (hpos : pos < s.length)
    (heq : SkipDelimitersAndComments s pos = .ok p1)
    (heq2 : tokenizeHandler s gtt pos p1 st = .ok (st1, p2, cont))
    (hP : LitInv s pos st) :
    p2 ≤ s.length ∧ (cont = true → LitInv s p2 st1) ∧
      (cont = false → ∀ t ∈ st1.1.tail.dropLast,
        t.litStart < t.litEnd ∨ t.type = TokenType.StringConstant) := by
  obtain ⟨hne, hEnd, hTail⟩ := hP
  obtain ⟨hsd1, hsd2⟩ := SDC_ok_bounds (le_of_lt hpos) heq
  rw [show st = (st.1, st.2) from rfl] at heq2
  have hspec := tokenizeHandler_ok gtt hsd2 heq2
  rcases hspec with ⟨hp1, hst1, hp2, hcf⟩ | ⟨hp1, hadv, hle, hcv, hcase⟩
  · -- end-of-input token appended, loop stops
    subst hcf
    refine ⟨by omega, fun hc => by simp at hc, fun hc t ht => ?_⟩
    rw [hst1] at ht
    simp only [tail_append_ne hne, List.dropLast_concat] at ht
    exact hTail t ht
  · rcases hcase with ⟨t, hst1, hds, hde, hcaset⟩ | ⟨lt, ty, hlast, hds, hp21, hty, hst1, hnb⟩
    · -- a fresh token was appended
      have htok : t.litStart < t.litEnd ∨ t.type = TokenType.StringConstant := by
        rcases hcaset with ⟨hls, hle2, -⟩ | ⟨hS, -⟩
        · exact Or.inl (by omega)
        · exact Or.inr hS
      have hEnd2 : t.litEnd ≤ p2 := by
        rcases hcaset with ⟨-, hle2, -⟩ | ⟨-, -, hle2, -⟩ <;> omega
      refine ⟨hle, fun hc => ?_, fun hc u hu => ?_⟩
      · refine ⟨by rw [hst1]; simp, fun u hu => ?_, fun u hu => ?_⟩
        · rw [hst1] at hu
          simp only [List.mem_append, List.mem_singleton] at hu
          rcases hu with hu | rfl
          · have := hEnd u hu
            omega
          · exact hEnd2
        · rw [hst1] at hu
          rw [tail_append_ne hne] at hu
          simp only [List.mem_append, List.mem_singleton] at hu
          rcases hu with hu | rfl
          · exact hTail u hu
          · exact htok
      · rw [hst1] at hu
        simp only [tail_append_ne hne, List.dropLast_concat] at hu
        exact hTail u hu
    · -- the previous token was extended in place
      have htoks : st.1 = st.1.dropLast ++ [lt] := (List.dropLast_append_getLast? lt hlast).symm
      have hltmem : lt ∈ st.1 := mem_of_getLast?_eq hlast
      have hlt1 : lt.litStart < lt.litEnd := by
        by_contra hcon
        exact hnb (subBuf_of_ge s (by omega))
      have hlt2 : lt.litEnd ≤ pos := hEnd lt hltmem
      have hext : lt.litStart < p1 + 1 := by omega
      refine ⟨by omega, fun hc => ?_, fun hc u hu => ?_⟩
      · refine ⟨by rw [hst1]; simp, fun u hu => ?_, fun u hu => ?_⟩
        · rw [hst1] at hu
          simp only [List.mem_append, List.mem_singleton] at hu
          rcases hu with hu | rfl
          · have := hEnd u (List.dropLast_subset _ hu)
            omega
          · simp only [ExtendLiteral, SetType]
            omega
        · rw [hst1] at hu
          by_cases hdl : st.1.dropLast = []
          · rw [hdl] at hu
            simp only [List.nil_append, List.tail_cons] at hu
            cases hu
          · rw [tail_append_ne hdl] at hu
            simp only [List.mem_append, List.mem_singleton] at hu
            rcases hu with hu | rfl
            · refine hTail u ?_
              rw [htoks, tail_append_ne hdl]
              exact List.mem_append_left _ hu
            · exact Or.inl (by simp only [ExtendLiteral, SetType]; omega)
      · rw [hst1] at hu
        by_cases hdl : st.1.dropLast = []
        · rw [hdl] at hu
          simp only [List.nil_append, List.tail_cons, List.dropLast_nil] at hu
          cases hu
        · rw [tail_append_ne hdl, List.dropLast_concat] at hu
          refine hTail u ?_
          rw [htoks, tail_append_ne hdl]
          exact List.mem_append_left _ hu

/-- Every token of a successful tokenization other than the sentinel and
the final token has a non-empty literal range or is a StringConstant. -/
theorem Tokenize_literal_ranges {s : Buf} {gtt : Nat → Nat → TokenType}
    {ts : List Token} (h : Tokenize s gtt = .ok ts) :
    ∀ t ∈ ts.tail.dropLast, t.litStart < t.litEnd ∨ t.type = TokenType.StringConstant := by
  rw [Tokenize] at h
  match hI : TokenizeI s gtt with
  | .error e => rw [hI] at h; cases h
  | .ok st =>
    rw [hI] at h
    cases h
    rw [TokenizeI] at hI
    refine @SplitString_ind s gtt (LitInv s)
      (fun st => ∀ t ∈ st.1.tail.dropLast,
        t.litStart < t.litEnd ∨ t.type = TokenType.StringConstant)
      (fun st hP t ht => hP.2.2 t (List.mem_of_mem_dropLast ht))
      (fun pos p1 st st1 p2 cont hpos heq heq2 hP =>
        LitInv_step hpos heq heq2 hP)
      (s.length + 1) 0 ([emptyToken], false) st
      (by omega) ?_ hI
    refine ⟨by simp, fun u hu => ?_, fun u hu => ?_⟩
    · simp only [List.mem_singleton] at hu
      rw [hu]
      simp [emptyToken]
    · simp at hu

/-- Observer for the two internal-only signals of the embedding: fuel
exhaustion of the loop and failure of the `VERIFY` progress assertion. -/
def isInternalErr : Except TokErr (List Token × Bool) → Bool
  | .error .fuel => true
  | .error .assert => true
  | _ => false

/-- The splitter loop driven by the tokenize handler never exhausts its
fuel (each continuing step strictly advances the position) and never fails
the `VERIFY` made-progress assertion. -/
theorem SplitString_no_internal {s : Buf} {gtt : Nat → Nat → TokenType} :
    ∀ {fuel pos : Nat} {st : List Token × Bool}, pos ≤ s.length → s.length - pos < fuel →
      isInternalErr (SplitString s (tokenizeHandler s gtt) fuel pos st) = false := by
  intro fuel
  induction fuel with
  | zero =>
    intro pos st hp hf
    omega
  | succ fuel ih =>
    intro pos st hp hf
    rw [SplitString]
    split
    next hpos => rfl
    next hpos =>
      split
      next e heq =>
        rw [SkipDelimitersAndComments] at heq
        have hnf := @SDCF_no_fuel s (s.length + 1) pos hp (by omega)
        rcases SDCF_error_cases heq with rfl | ⟨p, m, rfl⟩
        · exact absurd heq hnf
        · rfl
      next p1 heq =>
        obtain ⟨hsd1, hsd2⟩ := SDC_ok_bounds hp heq
        split
        next e heq2 =>
          rw [show st = (st.1, st.2) from rfl] at heq2
          rw [tokenizeHandler_error heq2]
          rfl
        next st1 p2 cont heq2 =>
          rw [show st = (st.1, st.2) from rfl] at heq2
          have hspec := tokenizeHandler_ok gtt hsd2 heq2
          split
          next hcont =>
            split
            next hassert =>
              exfalso
              rcases hspec with ⟨hp1, -, hp2, hcf⟩ | ⟨-, hadv, -, -, -⟩
              · rw [hcf] at hcont
                cases hcont
              · omega
            next hassert =>
              rcases hspec with ⟨hp1, -, hp2, hcf⟩ | ⟨-, hadv, hle, -, -⟩
              · rw [hcf] at hcont
                cases hcont
              · exact @ih p2 st1 hle (by omega)
          next hcont => rfl

/-- `Tokenize` (with its ample fuel) never reports fuel exhaustion and the
`VERIFY` assertion inside `SplitString` never fires. -/
theorem TokenizeI_no_internal (s : Buf) (gtt : Nat → Nat → TokenType) :
    isInternalErr (TokenizeI s gtt) = false := by
  rw [TokenizeI]
  exact SplitString_no_internal (by omega) (by omega)

theorem take_snoc_deref {s : Buf} {p : Nat} (h : p < s.length) :
    s.take p ++ [deref s p] = s.take (p + 1) := by
  rw [← subBuf_singleton s h, take_append_subBuf s (Nat.le_succ p)]

/-- The round-trip loop invariant: either a string-merge has already been
recorded (and the rebuild may differ), or the rebuild of the tokens
produced so far is exactly the consumed prefix of the buffer and the last
token either is a StringConstant or ends exactly at the current position. -/
def RTInv (s : Buf) (pos : Nat) (st : List Token × Bool) : Prop :=
  st.2 = true ∨
  (st.2 = false ∧ BuildSource s st.1 = s.take pos ∧
    ∃ lt, st.1.getLast? = some lt ∧ lt.litStart ≤ lt.litEnd ∧
      (lt.type = TokenType.StringConstant ∨ lt.litEnd = pos))

theorem RTInv_step {s : Buf} {gtt : Nat → Nat → TokenType}
    (hg : ∀ a b : Nat, gtt a b ≠ TokenType.StringConstant)
    {pos p1 : Nat} {st st1 : List Token × Bool} {p2 : Nat} {cont : Bool}
    (hpos : pos < s.length)
    (heq : SkipDelimitersAndComments s pos = .ok p1)
    (heq2 : tokenizeHandler s gtt pos p1 st = .ok (st1, p2, cont))
    (hP : RTInv s pos st) :
    p2 ≤ s.length ∧ (cont = true → RTInv s p2 st1) ∧
      (cont = false → st1.2 = true ∨ BuildSource s st1.1 = s) := by
  obtain ⟨hsd1, hsd2⟩ := SDC_ok_bounds (le_of_lt hpos) heq
  rw [show st = (st.1, st.2) from rfl] at heq2
  have hspec := tokenizeHandler_ok gtt hsd2 heq2
  rcases hP with hflag | ⟨hflag, hbuild, lt0, hlast0, hlt0a, hlt0b⟩
  · -- the flag is already set: it stays set
    rw [hflag] at heq2
    have hspec2 := tokenizeHandler_ok gtt hsd2 heq2
    have hst12 : st1.2 = true := by
      rcases hspec2 with ⟨-, hst1, -, -⟩ | ⟨-, -, -, -, hcase⟩
      · rw [hst1]
      · rcases hcase with ⟨t, hst1, -⟩ | ⟨lt, ty, -, -, -, -, hst1, -⟩ <;> rw [hst1] <;> simp
    have hple : p2 ≤ s.length := by
      rcases hspec2 with ⟨hp1, -, hp2, -⟩ | ⟨-, -, hle, -, -⟩ <;> omega
    exact ⟨hple, fun _ => Or.inl hst12, fun _ => Or.inl hst12⟩
  · rw [hflag] at heq2 hspec
    rcases hspec with ⟨hp1, hst1, hp2, hcf⟩ | ⟨hp1, hadv, hle, hcv, hcase⟩
    · -- end-of-input token: delimiter run to the end, empty literal
      have hout : OutputToken s (⟨.Undefined, pos, p1, p1, p1⟩ : Token) = subBuf s pos p1 := by
        simp [OutputToken, subBuf_same]
      have hbuild2 : BuildSource s st1.1 = s := by
        rw [hst1]
        rw [BuildSource_append, hout, hbuild, hp1, take_append_subBuf s (hp1 ▸ hsd1)]
        exact take_length_eq s
      subst hcf
      exact ⟨by omega, fun hc => by simp at hc, fun _ => Or.inr hbuild2⟩
    · rcases hcase with ⟨t, hst1, hds, hde, hcaset⟩ | ⟨lt, ty, hlast, hds, hp21, hty, hst1, hnb⟩
      · -- a fresh token was appended
        have hout : OutputToken s t = subBuf s pos p2 := by
          rcases hcaset with ⟨hls, hle2, hgtt⟩ | ⟨hS, hls, hle2, hlsle, hlelt, hq1, hq2⟩
          · have htyS : t.type ≠ TokenType.StringConstant := fun hS =>
              let ⟨a, b, hab⟩ := hgtt hS
              hg a b hab
            rw [OutputToken, if_neg htyS, hds, hde, hls, hle2]
            simp only [List.append_nil, List.append_assoc, List.nil_append]
            rw [subBuf_append s hsd1 (by omega)]
          · rw [OutputToken, if_pos hS, hds, hde, hls]
            have h1 : (['"'] : List Char) = subBuf s p1 (p1 + 1) := by
              rw [subBuf_singleton s hp1, hq1]
            have h2 : (['"'] : List Char) = subBuf s t.litEnd (t.litEnd + 1) := by
              rw [subBuf_singleton s hlelt, hq2]
            nth_rewrite 2 [h2]
            nth_rewrite 1 [h1]
            rw [subBuf_append s hsd1 (by omega), subBuf_append s (by omega) (by omega),
              subBuf_append s (by omega) (by omega), hle2]
        have hbuild2 : BuildSource s st1.1 = s.take p2 := by
          rw [hst1, BuildSource_append, hout, hbuild, take_append_subBuf s (by omega)]
        refine ⟨hle, fun hc => ?_, fun hc => ?_⟩
        · refine Or.inr ⟨by rw [hst1], hbuild2, t, by rw [hst1]; simp, ?_, ?_⟩
          · rcases hcaset with ⟨hls, hle2, -⟩ | ⟨-, hls, hle2, hlsle, -, -⟩ <;> omega
          · rcases hcaset with ⟨-, hle2, -⟩ | ⟨hS, -⟩
            · exact Or.inr hle2
            · exact Or.inl hS
        · have hp2n : p2 = s.length := by
            rw [hc] at hcv
            have := hcv.symm
            simpa using this
          refine Or.inr ?_
          rw [hbuild2, hp2n]
          exact take_length_eq s
      · -- the previous token was extended in place
        subst hds
        have hlteq : lt0 = lt := by
          rw [hlast] at hlast0
          exact (Option.some.inj hlast0).symm
        subst hlteq
        by_cases hltS : lt0.type = TokenType.StringConstant
        · have hst12 : st1.2 = true := by
            rw [hst1]
            simp [hltS]
          exact ⟨by omega, fun _ => Or.inl hst12, fun _ => Or.inl hst12⟩
        · have hltEnd : lt0.litEnd = pos := (hlt0b.resolve_left hltS)
          have hst12 : st1.2 = false := by
            rw [hst1]
            simp [hltS]
          have htoks : st.1 = st.1.dropLast ++ [lt0] :=
            (List.dropLast_append_getLast? lt0 hlast).symm
          have houtext : OutputToken s (ExtendLiteral (SetType lt0 ty) (pos + 1)) =
              OutputToken s lt0 ++ [deref s pos] := by
            simp only [OutputToken, ExtendLiteral, SetType]
            rw [if_neg hty, if_neg hltS]
            simp only [List.append_nil]
            rw [subBuf_snoc s (by omega) hpos, hltEnd, List.append_assoc]
          have hbuild2 : BuildSource s st1.1 = s.take p2 := by
            rw [hst1]
            have hb0 : BuildSource s st.1 =
                BuildSource s st.1.dropLast ++ OutputToken s lt0 := by
              conv_lhs => rw [htoks]
              rw [BuildSource_append]
            rw [BuildSource_append, houtext, ← List.append_assoc, ← hb0, hbuild,
              take_snoc_deref hpos, hp21]
          refine ⟨by omega, fun hc => ?_, fun hc => ?_⟩
          · refine Or.inr ⟨hst12, hbuild2, ExtendLiteral (SetType lt0 ty) (pos + 1),
              by rw [hst1]; simp, ?_, Or.inr ?_⟩
            · simp only [ExtendLiteral, SetType]
              omega
            · simp only [ExtendLiteral, SetType]
              omega
          · have hp2n : p2 = s.length := by
              rw [hc] at hcv
              have := hcv.symm
              simpa using this
            refine Or.inr ?_
            rw [hbuild2, hp2n]
            exact take_length_eq s

/-- Round trip: when tokenization succeeds without any compound-operator
merge extending a StringConstant token, rebuilding the source from the
token sequence reproduces the input exactly. -/
theorem Tokenize_roundtrip {s : Buf} {gtt : Nat → Nat → TokenType} {ts : List Token}
    (hg : ∀ a b : Nat, gtt a b ≠ TokenType.StringConstant)
    (h : TokenizeI s gtt = .ok (ts, false)) : BuildSource s ts = s := by
  rw [TokenizeI] at h
  have hq := @SplitString_ind s gtt (RTInv s)
    (fun st => st.2 = true ∨ BuildSource s st.1 = s)
    (fun st hP => ?_)
    (fun pos p1 st st1 p2 cont hpos heq heq2 hP => RTInv_step hg hpos heq heq2 hP)
    (s.length + 1) 0 ([emptyToken], false) (ts, false)
    (by omega) ?_ h
  · rcases hq with hq | hq
    · cases hq
    · exact hq
  · rcases hP with hflag | ⟨-, hbuild, -⟩
    · exact Or.inl hflag
    · refine Or.inr ?_
      rw [hbuild]
      exact take_length_eq s
  · refine Or.inr ⟨rfl, ?_, emptyToken, rfl, le_refl 0, Or.inr rfl⟩
    simp [BuildSource, OutputToken, emptyToken, subBuf_same]

/-! ### The function locator and the comment scanner -/

theorem deref_of_get? {s : Buf} {i : Nat} {c : Char} (h : s.get? i = some c) :
    deref s i = c := by
  have hlt := List.get?_eq_some.mp h
  obtain ⟨hb, hg⟩ := hlt
  rw [deref_lt hb]
  exact hg

/-- Whenever the locator loop reports the bracket imbalance, it returns the
end iterator. -/
theorem FindFunctionLoop_reported {s : Buf} {all : List Token} {nm : String} :
    ∀ {rest : List Token} {i : Nat} {depth : Int},
      (FindFunctionLoop s all nm rest i depth).2 = true →
      (FindFunctionLoop s all nm rest i depth).1 = none := by
  intro rest
  induction rest with
  | nil =>
    intro i depth h
    simp [FindFunctionLoop] at h
  | cons t rest ih =>
    intro i depth
    rw [FindFunctionLoop]
    split
    all_goals try exact ih
    all_goals repeat' split
    all_goals try exact ih
    all_goals intro h
    all_goals first
      | rfl
      | cases h

/-- Whenever `FindFunction` reports the bracket imbalance, it returns the
end iterator rather than a found token. -/
theorem FindFunction_reported (s : Buf) (tokens : List Token) (name : Option String)
    (h : (FindFunction s tokens name).2 = true) : (FindFunction s tokens name).1 = none := by
  match name with
  | none => rfl
  | some nm =>
    rw [FindFunction] at h ⊢
    by_cases hnm : nm = ""
    · rw [if_pos hnm]
    · rw [if_neg hnm] at h ⊢
      exact FindFunctionLoop_reported h

/-- `SkipComment` at an unterminated multi-line comment throws the
unterminated-comment error anchored at the opening slash. -/
theorem SkipComment_unterminated {s : Buf} {pos : Nat}
    (h1 : pos < s.length) (h2 : deref s pos = '/')
    (h3 : pos + 1 < s.length) (h4 : deref s (pos + 1) = '*')
    (h5 : ∀ i, pos + 2 ≤ i → i + 1 < s.length →
        ¬(deref s i = '*' ∧ deref s (i + 1) = '/')) :
    SkipComment s pos = .error (.parse pos unterminatedCommentMsg) := by
  rw [SkipComment]
  rw [if_neg (by push_neg; exact ⟨by omega, by rw [h2]; decide⟩)]
  rw [if_neg (by simp [h2])]
  rw [if_neg (by push_neg; exact ⟨by omega, by rw [h4]; decide⟩)]
  rw [if_neg (by rw [h4]; decide)]
  rw [if_pos h4]
  match hsc : scanClose (s.drop (pos + 1 + 1)) with
  | none => rfl
  | some k =>
    exfalso
    obtain ⟨j, hj1, hj2⟩ := scanClose_some_star hsc
    rw [List.get?_drop] at hj1 hj2
    have hb2 := (List.get?_eq_some.mp hj2).1
    refine h5 (pos + 1 + 1 + j) (by omega) (by omega) ⟨deref_of_get? hj1, ?_⟩
    have : pos + 1 + 1 + j + 1 = pos + 1 + 1 + (j + 1) := by omega
    rw [this]
    exact deref_of_get? hj2

/-! ### Concrete inputs used by the claims -/

/-- The input of the operator-merge example. -/
def srcAssign : Buf := "a += 1".toList

/-- The token sequence of `srcAssign`. -/
def toksAssign : List Token :=
  [⟨.Undefined, 0, 0, 0, 0⟩, ⟨.Identifier, 0, 0, 0, 1⟩,
   ⟨.Assignment, 1, 2, 2, 4⟩, ⟨.NumericConstant, 4, 5, 5, 6⟩]

/-- A quoted plus sign immediately followed by an equals sign. -/
def srcStringMerge : Buf := "\"+\"=".toList

/-- A single space. -/
def srcSpace : Buf := " ".toList

/-- An identifier followed by a trailing space. -/
def srcASpace : Buf := "a ".toList

/-- The token sequence of `srcASpace`. -/
def toksASpace : List Token :=
  [⟨.Undefined, 0, 0, 0, 0⟩, ⟨.Identifier, 0, 0, 0, 1⟩, ⟨.Undefined, 1, 2, 2, 2⟩]

/-- An unterminated multi-line comment. -/
def srcUnterm : Buf := "/* a".toList

/-- The unbalanced-bracket example of the spec. -/
def srcFooBrace : Buf := "int foo( \x7b ".toList

/-- The token sequence of `srcFooBrace`. -/
def toksFooBrace : List Token :=
  [⟨.Undefined, 0, 0, 0, 0⟩, ⟨.Identifier, 0, 0, 0, 3⟩, ⟨.Identifier, 3, 4, 4, 7⟩,
   ⟨.OpenParen, 7, 7, 7, 8⟩, ⟨.OpenBrace, 8, 9, 9, 10⟩, ⟨.Undefined, 10, 11, 11, 11⟩]

/-- A single closing parenthesis (an excess closer). -/
def srcCloseParen : Buf := ")".toList

/-- The token sequence of `srcCloseParen`. -/
def toksCloseParen : List Token :=
  [⟨.Undefined, 0, 0, 0, 0⟩, ⟨.ClosingParen, 0, 0, 0, 1⟩]

/-- The name searched for in the locator examples. -/
def fooName : String := "foo"

/-- The empty C string as a locator name. -/
def emptyName : String := ""

/-- Numeric-grammar example inputs. -/
def srcDot5 : Buf := ".5".toList

def srcPlusDot5 : Buf := "+.5".toList

def srcDot : Buf := ".".toList

def srcPlusDot : Buf := "+.".toList

def srcMinusDot : Buf := "-.".toList

def srcExpPlus : Buf := "1e+3".toList

def srcExpNoSign : Buf := "1e3".toList

def srcExpBare : Buf := "1e".toList

def srcExpSignOnly : Buf := "1e+".toList

def srcExpSignLetter : Buf := "1e+x".toList

def srcDotExp : Buf := ".5e+3".toList

/-- A buffer whose only character is a zero, with no terminator after it. -/
def srcZero : Buf := "0".toList

/-! ### The claims -/

/-- Claim C1, counterexample: on the input consisting of a quoted plus sign
followed by an equals sign, Tokenize succeeds (merging the equals sign into
the StringConstant token and dropping its quotes), but BuildSource does not
reproduce the input: the opening quote is lost. -/
theorem C1_counterexample :
    Tokenize srcStringMerge gttDefault =
      .ok [⟨.Undefined, 0, 0, 0, 0⟩, ⟨.Assignment, 0, 0, 1, 4⟩] ∧
    BuildSource srcStringMerge [⟨.Undefined, 0, 0, 0, 0⟩, ⟨.Assignment, 0, 0, 1, 4⟩] =
      ('+' :: '"' :: '=' :: []) ∧
    ('+' :: '"' :: '=' :: []) ≠ srcStringMerge := by
  decide

/-- Claim C1 (amended): for every literal classifier that never returns
StringConstant and every input which tokenizes successfully without any
compound-operator merge extending a StringConstant token (the instrumented
string-merge flag is false), BuildSource applied to the token sequence
reproduces the original text exactly. -/
theorem C1_roundtrip_amended (s : Buf) (gtt : Nat → Nat → TokenType) (ts : List Token)
    (hg : ∀ a b : Nat, gtt a b ≠ TokenType.StringConstant)
    (h : TokenizeI s gtt = .ok (ts, false)) : BuildSource s ts = s :=
  Tokenize_roundtrip hg h

/-- Witness for claim C1: the round trip on the operator-merge example. -/
theorem C1_roundtrip_witness : BuildSource srcAssign toksAssign = srcAssign :=
  C1_roundtrip_amended srcAssign gttDefault toksAssign
    (fun a b h => TokenType.noConfusion h) (by decide)

/-- Claim C2, counterexample: tokenizing a single space yields, after the
sentinel, a token for the trailing delimiter run whose literal range is
empty, refuting the claim that only the sentinel has an empty literal. -/
theorem C2_counterexample :
    Tokenize srcSpace gttDefault =
      .ok [⟨.Undefined, 0, 0, 0, 0⟩, ⟨.Undefined, 0, 1, 1, 1⟩] ∧
    (⟨.Undefined, 0, 1, 1, 1⟩ : Token).litStart = (⟨.Undefined, 0, 1, 1, 1⟩ : Token).litEnd := by
  decide

/-- Claim C2 (amended): in a successful tokenization, every token other
than the leading sentinel and the final token (which captures a trailing
delimiter run and has an empty literal range when the input ends in
delimiters) has a non-empty literal range, unless it is a StringConstant
(whose quoted text may be empty). -/
theorem C2_literal_ranges (s : Buf) (gtt : Nat → Nat → TokenType) (ts : List Token)
    (h : Tokenize s gtt = .ok ts) :
    ∀ t ∈ ts.tail.dropLast, t.litStart < t.litEnd ∨ t.type = TokenType.StringConstant :=
  Tokenize_literal_ranges h

/-- Witness for claim C2: the identifier token of the trailing-space input
has a non-empty literal. -/
theorem C2_literal_witness :
    (⟨.Identifier, 0, 0, 0, 1⟩ : Token).litStart < (⟨.Identifier, 0, 0, 0, 1⟩ : Token).litEnd ∨
      (⟨.Identifier, 0, 0, 0, 1⟩ : Token).type = TokenType.StringConstant :=
  C2_literal_ranges srcASpace gttDefault toksASpace (by decide)
    ⟨.Identifier, 0, 0, 0, 1⟩ (by decide)

/-- Claim C3, counterexample: `SkipFloatNumber` consumes two characters of
the input `.5` and three of `+.5`, not zero as claimed: the digit loop
after the decimal point advances the saved position even without an
integer part. -/
theorem C3_counterexample :
    SkipFloatNumber srcDot5 0 = 2 ∧ (2 : Nat) ≠ 0 ∧
    SkipFloatNumber srcPlusDot5 0 = 3 ∧ (3 : Nat) ≠ 0 := by
  decide

/-- Claim C3 (amended): on `.5` and `+.5` `SkipFloatNumber` consumes the
entire literal (digits after a decimal point are consumed even without an
integer part); only a dot with no digits after it, as in `.`, `+.`, `-.`,
consumes nothing. -/
theorem C3_skipFloat_amended :
    SkipFloatNumber srcDot5 0 = 2 ∧ SkipFloatNumber srcPlusDot5 0 = 3 ∧
    SkipFloatNumber srcDot 0 = 0 ∧ SkipFloatNumber srcPlusDot 0 = 0 ∧
    SkipFloatNumber srcMinusDot 0 = 0 := by
  decide

/-- Claim C4: tokenizing `a += 1` yields, after the sentinel, exactly
Identifier `a`, Assignment `+=` (the equals sign merged into the adjacent
plus token in place), and NumericConstant `1`. -/
theorem C4_operator_merge :
    Tokenize srcAssign gttDefault = .ok toksAssign ∧
    toksAssign.map Token.type =
      [.Undefined, .Identifier, .Assignment, .NumericConstant] ∧
    subBuf srcAssign 0 1 = ('a' :: []) ∧
    subBuf srcAssign 2 4 = ('+' :: '=' :: []) ∧
    subBuf srcAssign 5 6 = ('1' :: []) := by
  decide

/-- Claim C5: at the opening of a multi-line comment with no closing
star-slash anywhere before the end of the input, `SkipComment` raises the
unterminated-multi-line-comment parse error anchored at the opening
slash. -/
theorem C5_unterminated_comment (s : Buf) (pos : Nat)
    (h1 : pos < s.length) (h2 : deref s pos = '/')
    (h3 : pos + 1 < s.length) (h4 : deref s (pos + 1) = '*')
    (h5 : ∀ i, pos + 2 ≤ i → i + 1 < s.length →
        ¬(deref s i = '*' ∧ deref s (i + 1) = '/')) :
    SkipComment s pos = .error (.parse pos unterminatedCommentMsg) :=
  SkipComment_unterminated h1 h2 h3 h4 h5

/-- Witness for claim C5: the spec example of an unterminated comment. -/
theorem C5_unterminated_witness :
    SkipComment srcUnterm 0 = .error (.parse 0 unterminatedCommentMsg) :=
  C5_unterminated_comment srcUnterm 0 (by decide) (by decide) (by decide) (by decide)
    (by
      intro i hi1 hi2
      have hlen : List.length srcUnterm = 4 := by decide
      have hge : 2 ≤ i := by omega
      have hlt : i < 3 := by omega
      interval_cases i
      decide)

/-- Claim C6, counterexample: the token stream of `int foo( { ` contains
only opening brackets, so the depth counter never goes negative: locating
`foo` does not report any imbalance and returns the `foo` token (index 2)
rather than the end iterator. -/
theorem C6_counterexample :
    Tokenize srcFooBrace gttDefault = .ok toksFooBrace ∧
    FindFunction srcFooBrace toksFooBrace (some fooName) = (some 2, false) := by
  decide

/-- Claim C6 (amended): `FindFunction` never throws; whenever it reports
the bracket imbalance (a closing bracket drives the depth negative, as in
the token stream of a lone closing parenthesis) it returns the end
iterator; but excess unmatched opening brackets, as in `int foo( { `, are
not reported, and locating `foo` there returns the `foo` token. -/
theorem C6_find_function_amended :
    (∀ (s : Buf) (tokens : List Token) (name : Option String),
        (FindFunction s tokens name).2 = true → (FindFunction s tokens name).1 = none) ∧
    Tokenize srcCloseParen gttDefault = .ok toksCloseParen ∧
    FindFunction srcCloseParen toksCloseParen (some fooName) = (none, true) ∧
    FindFunction srcFooBrace toksFooBrace (some fooName) = (some 2, false) :=
  ⟨FindFunction_reported, by decide, by decide, by decide⟩

/-- Witness for claim C6: the imbalance reported on the lone closing
parenthesis comes with the end iterator as result. -/
theorem C6_find_function_witness :
    (FindFunction srcCloseParen toksCloseParen (some fooName)).1 = none :=
  C6_find_function_amended.1 srcCloseParen toksCloseParen (some fooName) (by decide)

/-- Claim C7: an exponent is consumed only with an explicit sign and at
least one digit after an integer part: `1e+3` is consumed entirely, while
`1e3` is consumed only up to the leading digit; further, a bare `e`, a
sign without digits, a non-digit after the sign, and an exponent with no
integer part all leave the exponent characters unconsumed. -/
theorem C7_exponent :
    SkipFloatNumber srcExpPlus 0 = 4 ∧ SkipFloatNumber srcExpNoSign 0 = 1 ∧
    SkipFloatNumber srcExpBare 0 = 1 ∧ SkipFloatNumber srcExpSignOnly 0 = 1 ∧
    SkipFloatNumber srcExpSignLetter 0 = 1 ∧ SkipFloatNumber srcDotExp 0 = 2 := by
  decide

/-- Claim C8: driven by the tokenize handler, the splitter loop always
terminates within its fuel (every continuing step strictly advances the
position) and the embedded `VERIFY` made-progress assertion never fires:
tokenization never returns either internal signal, for any input and any
classifier. -/
theorem C8_progress (s : Buf) (gtt : Nat → Nat → TokenType) :
    isInternalErr (TokenizeI s gtt) = false :=
  TokenizeI_no_internal s gtt

/-- Claim C9: on the buffer holding the single character `0` with no
terminator after it, the leading-zero check of `SkipFloatNumber`
dereferences position 1, which is the end position of the buffer: the scan
does read a position not strictly before End. -/
theorem C9_reads_end :
    SkipFloatNumberReads srcZero 0 = (0 :: 0 :: 1 :: 0 :: []) ∧
    List.length srcZero = 1 ∧
    1 ∈ SkipFloatNumberReads srcZero 0 := by
  decide

/-- Claim C10: with a null pointer or an empty string as the target name,
`FindFunction` returns the end iterator without reporting, for every
buffer and every token range. -/
theorem C10_null_or_empty_name (s : Buf) (tokens : List Token) :
    FindFunction s tokens none = (none, false) ∧
    FindFunction s tokens (some emptyName) = (none, false) :=
  ⟨rfl, rfl⟩

end Parsing

end Diligent
